import Mathlib

set_option maxRecDepth 10000

/-!
# SentryFlow — verification of the event-pipeline specification

A shallow embedding of the SentryFlow core pipeline (accuknox/SentryFlow,
`sentryflow/pkg/...`) in Lean 4, with theorems settling the frozen claims
about its natural-language specification.

Go strings are byte slices; we model them as `List Nat` (byte values).
Machine integers are modelled as `Int`/`Nat` with explicit wrapping
(`% 2^32`, `% 2^64`) where Go conversions or overflow occur.
-/

namespace SentryFlow

/-- Go strings / byte slices, modelled as lists of byte values. -/
abbrev Str : Type := List Nat

/-- Bytes of a Lean string literal (ASCII use only). -/
def strOfString (s : String) : Str := s.data.map Char.toNat

/-! ## Primitives mirroring Go's `strings` package -/

/-- `isPrefixL pat s`: `pat` occurs at the start of `s`. -/
def isPrefixL : Str → Str → Bool
  | [], _ => true
  | _ :: _, [] => false
  | p :: ps, c :: cs => (p == c) && isPrefixL ps cs

/-- Index of the first occurrence of `pat` in `s`
(`strings.Index` returns `-1` when absent, modelled as `none`). -/
def firstIdx (pat : Str) : Str → Option Nat
  | [] => if isPrefixL pat [] then some 0 else none
  | c :: cs => if isPrefixL pat (c :: cs) then some 0 else (firstIdx pat cs).map (· + 1)

/-- `strings.Contains s pat`. -/
def containsSub (s pat : Str) : Bool := (firstIdx pat s).isSome

/-- `strings.Split s sep` for a single-byte separator `c`
(splits at every occurrence; `Split "" sep = [""]`). -/
def splitCh (c : Nat) : Str → List Str
  | [] => [[]]
  | b :: bs =>
    if b == c then [] :: splitCh c bs
    else
      match splitCh c bs with
      | [] => [[b]]
      | t :: ts => (b :: t) :: ts

/-- Go slice expression `s[a:b]` (bounds are checked by callers). -/
def seg (s : Str) (a b : Nat) : Str := (s.drop a).take (b - a)

/-- Unicode white space bytes relevant to ASCII input
(`' '`, `'\t'`, `'\n'`, `'\v'`, `'\f'`, `'\r'`). -/
def isSpaceB (b : Nat) : Bool :=
  b == 32 || b == 9 || b == 10 || b == 11 || b == 12 || b == 13

/-- `strings.TrimSpace`. -/
def trimSpace (s : Str) : Str :=
  (((s.dropWhile isSpaceB).reverse).dropWhile isSpaceB).reverse

/-- `strings.Trim s "_"`. -/
def trimUnd (s : Str) : Str :=
  (((s.dropWhile (· == 95)).reverse).dropWhile (· == 95)).reverse

/-- A found occurrence fits inside the searched string. -/
theorem isPrefixL_length {pat s : Str} (h : isPrefixL pat s = true) :
    pat.length ≤ s.length := by
  induction pat generalizing s with
  | nil => exact Nat.zero_le _
  | cons p ps ih =>
    cases s with
    | nil => simp [isPrefixL] at h
    | cons c cs =>
      simp only [isPrefixL, Bool.and_eq_true] at h
      simpa [List.length_cons] using Nat.succ_le_succ (ih h.2)

theorem firstIdx_le {pat s : Str} {i : Nat} (h : firstIdx pat s = some i) :
    i + pat.length ≤ s.length := by
  induction s generalizing i with
  | nil =>
    simp only [firstIdx] at h
    split at h
    · rename_i hpre
      cases pat with
      | nil => simp_all
      | cons p ps => simp [isPrefixL] at hpre
    · exact absurd h (by simp)
  | cons c cs ih =>
    simp only [firstIdx] at h
    split at h
    · rename_i hpre
      have hlen := isPrefixL_length hpre
      have h0 : i = 0 := by simpa using h.symm
      omega
    · rcases Option.map_eq_some'.mp h with ⟨j, hj, rfl⟩
      have := ih hj
      simp only [List.length_cons]
      omega

/-- Fuel-indexed core of `splitSub` (the fuel is internal: by
`firstIdx_le`, each cut consumes at least `sep.length ≥ 1` bytes, so any
fuel larger than `s.length` yields the fixpoint). -/
def splitSubF (sep : Str) : Nat → Str → List Str
  | 0, s => [s]
  | fuel + 1, s =>
    match firstIdx sep s with
    | none => [s]
    | some i => s.take i :: splitSubF sep fuel (s.drop (i + sep.length))

/-- `strings.Split s sep` for a non-empty multi-byte separator: repeatedly
cut at the first occurrence. -/
def splitSub (sep : Str) (s : Str) : List Str :=
  if sep.length = 0 then [s] else splitSubF sep (s.length + 1) s

/-- `strings.SplitN s sep 2`. -/
def splitN2 (sep : Str) (s : Str) : List Str :=
  match firstIdx sep s with
  | none => [s]
  | some i => [s.take i, s.drop (i + sep.length)]

/-- `strings.Join xs sep`. -/
def joinSep (sep : Str) : List Str → Str
  | [] => []
  | [w] => w
  | w :: v :: ws => w ++ sep ++ joinSep sep (v :: ws)

/-- `strings.Join xs " "`. -/
def joinSp (xs : List Str) : Str := joinSep [32] xs

/-- `strings.ToLower`, ASCII. -/
def lowerStr (s : Str) : Str :=
  s.map fun b => if 65 ≤ b && b ≤ 90 then b + 32 else b

/-! ## Primitives mirroring Go's `strconv` and integer conversions -/

/-- One digit of a base-10 accumulation; `none` once a non-digit byte was
seen. -/
def decStep (acc : Option Nat) (b : Nat) : Option Nat :=
  if 48 ≤ b && b ≤ 57 then acc.map fun v => v * 10 + (b - 48) else none

/-- Value of an all-decimal-digit string; `none` on empty input or on any
non-digit byte (Go's syntax error). -/
def decVal (s : Str) : Option Nat :=
  if s.isEmpty then none else s.foldl decStep (some 0)

/-- The value Go's `strconv.ParseInt(s, 10, 64)` yields when the error is
discarded: syntax errors give 0, out-of-range values are clamped. -/
def goParseInt64 (s : Str) : Int :=
  match s with
  | 43 :: rest =>
    match decVal rest with
    | none => 0
    | some v => if (v : Int) > 2 ^ 63 - 1 then 2 ^ 63 - 1 else (v : Int)
  | 45 :: rest =>
    match decVal rest with
    | none => 0
    | some v => if (v : Int) > 2 ^ 63 then -(2 ^ 63) else -(v : Int)
  | _ =>
    match decVal s with
    | none => 0
    | some v => if (v : Int) > 2 ^ 63 - 1 then 2 ^ 63 - 1 else (v : Int)

/-- `strconv.Atoi` on a 64-bit platform (error discarded). -/
def goAtoi (s : Str) : Int := goParseInt64 s

/-- Go conversion `int32(n)` from a wider signed value. -/
def toInt32 (n : Int) : Int := (n + 2 ^ 31) % 2 ^ 32 - 2 ^ 31

/-- Go two's-complement wrap of an `int64` arithmetic result. -/
def wrap64 (n : Int) : Int := (n + 2 ^ 63) % 2 ^ 64 - 2 ^ 63

/-- Go conversion `uint64(n)` from a signed value. -/
def toUInt64 (n : Int) : Nat := (n % 2 ^ 64).toNat

/-! ## Data model: the canonical `APIEvent` (protobuf/golang) -/

/-- Header maps (`map[string]string`), modelled as association lists with
insert-or-overwrite assignment. -/
abbrev HMap : Type := List (Str × Str)

/-- `m[k] = v` on a Go map: overwrite the existing key or append. -/
def mapSet (m : HMap) (k v : Str) : HMap :=
  match m with
  | [] => [(k, v)]
  | (k', v') :: rest => if k' == k then (k, v) :: rest else (k', v') :: mapSet rest k v

/-- Go map lookup `m[k]` with presence flag. -/
def mapGet (m : List (Str × Str)) (k : Str) : Option Str :=
  match m with
  | [] => none
  | (k', v') :: rest => if k' == k then some v' else mapGet rest k

structure Metadata where
  contextId : Nat
  timestamp : Nat
  meshId : Str
  nodeName : Str
  receiverName : Str
  receiverVersion : Str
  deriving DecidableEq, Repr

/-- `pb.Workload` (the Go field `Namespace` is spelled `ns` here). -/
structure Workload where
  name : Str
  ns : Str
  ip : Str
  port : Int
  deriving DecidableEq, Repr

structure Request where
  headers : HMap
  body : Str
  deriving DecidableEq, Repr

structure Response where
  headers : HMap
  body : Str
  backendLatencyInNanos : Nat
  deriving DecidableEq, Repr

structure APIEvent where
  metadata : Metadata
  source : Workload
  destination : Workload
  request : Request
  response : Response
  protocol : Str
  deriving DecidableEq, Repr

/-! ## Fan-out stage (`pkg/core/sentryflow.go`, `fanOutAPIEvents`)

The two output queues are bounded Go channels; an event received from the
ingestion queue is pushed to each with a non-blocking `select`/`default`,
incrementing the per-output drop counter when the push fails. -/

/-- A bounded Go channel: capacity and current buffer. -/
structure Chan (α : Type) where
  cap : Nat
  buf : List α
  deriving DecidableEq, Repr

/-- All three pipeline queues are created with `make(chan *pb.APIEvent, 10240)`. -/
def pipelineQueueCap : Nat := 10240

def chanFull {α : Type} (c : Chan α) : Bool := c.cap ≤ c.buf.length

/-- Non-blocking channel send (`select { case ch <- ev: default: }`):
succeeds and appends exactly when the buffer has room. -/
def trySend {α : Type} (c : Chan α) (a : α) : Chan α × Bool :=
  if c.buf.length < c.cap then ({ c with buf := c.buf ++ [a] }, true) else (c, false)

/-- `fanoutStats`: events received and per-output drops. -/
structure FanoutStats where
  inCount : Nat
  grpcDrop : Nat
  httpDrop : Nat
  deriving DecidableEq, Repr

structure FanoutState (α : Type) where
  grpcOut : Chan α
  httpOut : Chan α
  stats : FanoutStats
  deriving DecidableEq, Repr

/-- One iteration of `fanOutAPIEvents` for a dequeued event `ev`: count it,
then attempt a non-blocking push to the gRPC queue and, independently, to
the HTTP queue, incrementing the matching drop counter on failure. -/
def fanOutStep {α : Type} (s : FanoutState α) (ev : α) : FanoutState α :=
  let stats0 := { s.stats with inCount := s.stats.inCount + 1 }
  let g := trySend s.grpcOut ev
  let stats1 := if g.2 then stats0 else { stats0 with grpcDrop := stats0.grpcDrop + 1 }
  let h := trySend s.httpOut ev
  let stats2 := if h.2 then stats1 else { stats1 with httpDrop := stats1.httpDrop + 1 }
  { grpcOut := g.1, httpOut := h.1, stats := stats2 }

/-! ## Orchestrator loop branches (`pkg/core/sentryflow.go`, `Manager.run`)

The `for { select { ... } }` loop of `Manager.run` has a shutdown branch
(`<-m.Ctx.Done()`) and a configuration-change branch (`<-m.configChan`).
We record the side effects each branch performs, in order, as actions. -/

inductive ManagerAction where
  | cancelReceiversScope
  | buildK8sClient
  | startReceivers
  | startHttpServer
  | startFanout
  | startGrpcExporter
  | startHttpExporter
  | startGrpcServer
  | stopServers
  | waitAllWorkers
  | closeApiEventsQueue
  | closeGrpcEventsQueue
  | closeHttpEventsQueue
  | closeConfigChan
  | returnFromRun
  deriving DecidableEq, Repr

/-- Start-up sequence of `Manager.run` before entering the loop (error
branches omitted): the queues, fan-out and exporters are created once here. -/
def initSequence : List ManagerAction :=
  [.startHttpServer, .startReceivers, .startFanout, .startGrpcExporter,
   .startHttpExporter, .startGrpcServer]

/-- The shutdown branch (`case <-m.Ctx.Done()`). -/
def shutdownBranch : List ManagerAction :=
  [.cancelReceiversScope, .stopServers, .waitAllWorkers, .closeApiEventsQueue,
   .closeGrpcEventsQueue, .closeHttpEventsQueue, .closeConfigChan, .returnFromRun]

/-- The configuration-change branch (`case updatedConfig := <-m.configChan`):
cancel the receiver scope, optionally rebuild the k8s client
(`areK8sReceivers(updatedConfig)`), then start the new receiver set;
a client or receiver-init failure makes `run` return. -/
def reloadBranch (needsK8s k8sErr recvInitErr : Bool) : List ManagerAction :=
  ManagerAction.cancelReceiversScope ::
    (if needsK8s then
      ManagerAction.buildK8sClient ::
        (if k8sErr then [ManagerAction.returnFromRun]
         else ManagerAction.startReceivers ::
           (if recvInitErr then [ManagerAction.returnFromRun] else []))
     else
      ManagerAction.startReceivers ::
        (if recvInitErr then [ManagerAction.returnFromRun] else []))

/-- Actions that touch the ingestion queue, an output queue, the fan-out
task or an exporter task. -/
def touchesPipeline : ManagerAction → Bool
  | .closeApiEventsQueue => true
  | .closeGrpcEventsQueue => true
  | .closeHttpEventsQueue => true
  | .startFanout => true
  | .startGrpcExporter => true
  | .startHttpExporter => true
  | _ => false

/-! ## Line-protocol receiver (`pkg/receiver/other/f5-big-ip/f5-big-ip.go`)

Sentinel and delimiter constants of the F5 BIG-IP log-line protocol. -/

def HSL_START : Str := strOfString
  ("__HSL_START__ __HSL_START__ __HSL_START__ __HSL_START__ __HSL_START__ __HSL_START__")

def HSL_END : Str := strOfString ("__HSL_END__")

def REQHS : Str := strOfString ("__REQHS__")

def REQHE : Str := strOfString ("__REQHE__")

def HEAN : Str := strOfString ("__HEAN__")

def HEAV : Str := strOfString ("__HEAV__")

def RESPHS : Str := strOfString ("__RESPHS__")

def RESPHE : Str := strOfString ("__RESPHE__")

def REQPS : Str := strOfString ("__REQPS__")

def REQPE : Str := strOfString ("__REQPE__")

/-- Value of a standard base64 alphabet byte. -/
def b64digit (b : Nat) : Option Nat :=
  if 65 ≤ b && b ≤ 90 then some (b - 65)
  else if 97 ≤ b && b ≤ 122 then some (b - 97 + 26)
  else if 48 ≤ b && b ≤ 57 then some (b - 48 + 52)
  else if b == 43 then some 62
  else if b == 47 then some 63
  else none

/-- Model of `base64.StdEncoding.DecodeString` (external library): the
decoded bytes together with a success flag; on an encoding error Go
returns the bytes decoded so far alongside the error. -/
def b64decodeGo : Str → Str × Bool
  | [] => ([], true)
  | c1 :: c2 :: c3 :: c4 :: rest =>
    (match b64digit c1, b64digit c2, b64digit c3, b64digit c4 with
     | some d1, some d2, some d3, some d4 =>
       let r := b64decodeGo rest
       ([d1 * 4 + d2 / 16, d2 % 16 * 16 + d3 / 4, d3 % 4 * 64 + d4] ++ r.1, r.2)
     | some d1, some d2, some d3, none =>
       if c4 == 61 && rest == [] then
         ([d1 * 4 + d2 / 16, d2 % 16 * 16 + d3 / 4], true)
       else ([], false)
     | some d1, some d2, none, _ =>
       if c3 == 61 && c4 == 61 && rest == [] then ([d1 * 4 + d2 / 16], true)
       else ([], false)
     | _, _, _, _ => ([], false))
  | _ => ([], false)

/-- How a call of `parseF5LogLine` can abort instead of returning.

The package-level `var logger *zap.SugaredLogger` of the f5-big-ip package
is never assigned: `Start` writes `logger := util.LoggerFromCtx(ctx)`,
which declares a fresh local variable shadowing the package variable.
Every logging call inside `parseF5LogLine` therefore dereferences a nil
`*zap.SugaredLogger` receiver and panics. -/
inductive PanicKind where
  /-- a log call on the nil package-level logger -/
  | nilLogger
  /-- `parts[10]` / `parts[11]` with fewer than 12 fields present -/
  | indexOutOfRange
  /-- `line[start+len(HSL_START):end]` with `end < start+len(HSL_START)` -/
  | sliceBounds
  deriving DecidableEq, Repr

/-- Outcome of one `parseF5LogLine` call. Both `return nil` statements in
the source are preceded by a call on the nil logger, so the function
either returns an event or panics. -/
inductive ParseResult where
  | event (e : APIEvent)
  | panic (k : PanicKind)
  deriving DecidableEq, Repr

/-- The loop body of `extractHeaders` over one `HEAN`-separated section:
skip sections without a `HEAV` key/value separator, split once on `HEAV`,
trim spaces then `_` padding from key and value, and assign into the
map. -/
def headerFold (out : HMap) (sec : Str) : HMap :=
  if containsSub sec HEAV then
    match splitN2 HEAV sec with
    | [k, v] => mapSet out (trimUnd (trimSpace k)) (trimUnd (trimSpace v))
    | _ => out
  else out

/-- `extractHeaders(s, startTag, endTag)`: cut the section between the two
tags, split it on `HEAN` into entries, fold each through `headerFold`.
Returns the map and the remainder after `endTag` (the Go error result is
always nil). -/
def extractHeaders (s startTag endTag : Str) : HMap × Str :=
  match firstIdx startTag s with
  | none => ([], s)
  | some startIdx =>
    let tmp := s.drop (startIdx + startTag.length)
    match firstIdx endTag tmp with
    | none => ([], s)
    | some endIdx =>
      let headerPart := tmp.take endIdx
      let rest := tmp.drop (endIdx + endTag.length)
      let sections := splitSub HEAN headerPart
      let out := sections.foldl headerFold []
      (out, rest)

/-- Request pseudo-header keys seeded from the positional fields, and the
response `:status` pseudo-header key. -/
def kScheme : Str := strOfString (":scheme")

def kPath : Str := strOfString (":path")

def kMethod : Str := strOfString (":method")

def kQuery : Str := strOfString (":query")

def kStatus : Str := strOfString (":status")

def f5ReceiverName : Str := strOfString ("f5-big-ip")

def f5ReceiverVersion : Str := strOfString ("16.1")

/-- The sentinel/trim/split stage of `parseF5LogLine` (lines 72–85 of the
source): locate both sentinels (missing one panics on the nil logger),
slice between them (an end sentinel before the start slice boundary is a
Go slice-bounds panic), trim and space-split, and apply the
`len(parts) < 10` guard (its drop branch logs on the nil logger); 10 or
11 fields make the later `parts[10]`/`parts[11]` reads panic. -/
def f5Fields (line : Str) : Except PanicKind (List Str) :=
  match firstIdx HSL_START line, firstIdx HSL_END line with
  | some start, some endIdx =>
    if start + HSL_START.length > endIdx then .error .sliceBounds
    else
      let payload := trimSpace (seg line (start + HSL_START.length) endIdx)
      let parts := splitCh 32 payload
      if parts.length < 10 then .error .nilLogger
      else if parts.length < 12 then .error .indexOutOfRange
      else .ok parts
  | _, _ => .error .nilLogger

/-- The field-reading and event-building stage of `parseF5LogLine`
(lines 86–177 of the source): read the 12 positional fields, convert the
numeric ones with errors discarded, re-join the tail, extract both header
sections, seed the pseudo-headers, decode the base64 bodies (an invalid
response body logs on the nil logger) and build the `APIEvent`. -/
def f5EventOfParts (parts : List Str) : ParseResult :=
  let scheme := parts.getD 0 []
  let path := parts.getD 1 []
  let method := parts.getD 2 []
  let query := parts.getD 3 []
  let sourceIP := parts.getD 4 []
  let sourcePortStr := parts.getD 5 []
  let destIP := parts.getD 6 []
  let destPortStr := parts.getD 7 []
  let protocol := parts.getD 8 []
  let responseStatusCode := parts.getD 9 []
  let reqTimeStr := parts.getD 10 []
  let respTimeStr := parts.getD 11 []
  let sourcePort := goAtoi sourcePortStr
  let destPort := goAtoi destPortStr
  let reqTime := goParseInt64 reqTimeStr
  let respTime := goParseInt64 respTimeStr
  let rest := joinSp (parts.drop 12)
  let rh := extractHeaders rest REQHS REQHE
  let reqHeaders :=
    mapSet (mapSet (mapSet (mapSet rh.1 kScheme scheme) kPath path) kMethod method)
      kQuery query
  let sh := extractHeaders rh.2 RESPHS RESPHE
  let respHeaders := mapSet sh.1 kStatus responseStatusCode
  let rest2 := sh.2
  let reqBody :=
    match firstIdx REQPS rest2 with
    | some idx =>
      let tmp := rest2.drop (idx + REQPS.length)
      match firstIdx REQPE tmp with
      | some i2 => (b64decodeGo (trimSpace (tmp.take i2))).1
      | none => []
    | none => []
  let mkEvent := fun (respBody : Str) => ParseResult.event
    { metadata :=
        { contextId := 0
          timestamp := toUInt64 reqTime
          meshId := []
          nodeName := []
          receiverName := f5ReceiverName
          receiverVersion := f5ReceiverVersion }
      source := { name := [], ns := [], ip := sourceIP, port := toInt32 sourcePort }
      destination := { name := [], ns := [], ip := destIP, port := toInt32 destPort }
      request := { headers := reqHeaders, body := reqBody }
      response :=
        { headers := respHeaders
          body := respBody
          backendLatencyInNanos :=
            toUInt64 (wrap64 (wrap64 (respTime - reqTime) * 1000000)) }
      protocol := protocol }
  match firstIdx REQPE rest2 with
  | some idx =>
    let tmp := rest2.drop (idx + REQPE.length)
    let r := b64decodeGo (trimSpace tmp)
    if r.2 then mkEvent r.1 else .panic .nilLogger
  | none => mkEvent []

/-- `parseF5LogLine`, straight from the source, as the composition of its
two stages. -/
def parseF5LogLine (line : Str) : ParseResult :=
  match f5Fields line with
  | .error k => .panic k
  | .ok parts => f5EventOfParts parts

/-- The event of a parse outcome, when one was produced. -/
def parsedEvent? : ParseResult → Option APIEvent
  | .event e => some e
  | .panic _ => none

def isEvent (r : ParseResult) : Bool := (parsedEvent? r).isSome

/-- The produced event's backend latency, as an integer. -/
def eventLatencyZ? (r : ParseResult) : Option Int :=
  (parsedEvent? r).map fun e => (e.response.backendLatencyInNanos : Int)

/-- The request-time and response-time values a line parses to (the
sentinel/trim/split pipeline of `parseF5LogLine`, stopping at the two
time fields). -/
def f5ReqRespTimes (line : Str) : Option (Int × Int) :=
  match f5Fields line with
  | .ok parts => some (goParseInt64 (parts.getD 10 []), goParseInt64 (parts.getD 11 []))
  | .error _ => none

/-- Decimal strings Go's `strconv.ParseInt`/`Atoi` accepts (an optional
sign followed by at least one digit, base 10). -/
def goIntSyntaxOk (s : Str) : Bool :=
  match s with
  | 43 :: rest => (decVal rest).isSome
  | 45 :: rest => (decVal rest).isSome
  | _ => (decVal s).isSome

/-! ## Decimal rendering (`fmt.Sprintf("%d", ...)` and encoders) -/

/-- Fuel-indexed decimal digit string of a number (empty for 0; the fuel
is internal, any fuel at least `n` yields the fixpoint since `n / 10`
strictly decreases). -/
def natDecDigitsF : Nat → Nat → Str
  | _, 0 => []
  | 0, _ + 1 => []
  | f + 1, n + 1 => natDecDigitsF f ((n + 1) / 10) ++ [(n + 1) % 10 + 48]

/-- Decimal digit string of a positive number (empty for 0). -/
def natDecDigits (n : Nat) : Str := natDecDigitsF n n

/-- Decimal rendering of a natural number. -/
def natToDec (n : Nat) : Str := if n = 0 then [48] else natDecDigits n

/-- Decimal rendering of an integer (`fmt.Sprintf("%d", n)`). -/
def intToDec (n : Int) : Str :=
  if n < 0 then 45 :: natToDec (-n).toNat else natToDec n.toNat

/-! ## Pull-subscription receiver (`pkg/receiver/other/gcp/gcp.go`)

The GCP Cloud Logging entry delivered over Pub/Sub, after JSON decoding. -/

structure GcpHttpRequest where
  requestMethod : Str
  requestUrl : Str
  requestSize : Str
  status : Int
  responseSize : Str
  userAgent : Str
  remoteIp : Str
  serverIp : Str
  deriving DecidableEq, Repr

/-- `Resource` (its Go field `Type` is spelled `rtype` here). -/
structure GcpResource where
  rtype : Str
  labels : List (Str × Str)
  deriving DecidableEq, Repr

structure GcpJsonPayload where
  apiName : Str
  apiVersion : Str
  apiMethod : Str
  location : Str
  producerId : Str
  serviceConfig : Str
  deriving DecidableEq, Repr

structure LogEntry where
  timestamp : Str
  severity : Str
  insertId : Str
  resource : GcpResource
  httpRequest : GcpHttpRequest
  jsonPayload : GcpJsonPayload
  deriving DecidableEq, Repr

/-- `util.GCPAPIGateway` (the `util` package is outside `src/`; this is
the receiver-name constant for GCP events, equal to the fallback hostname
literal used in `gcp.go`). -/
def GCPAPIGateway : Str := strOfString ("gcp-api-gateway")

/-- The generic fallback hostname literal of `processMessage`. -/
def gcpFallbackHostname : Str := strOfString ("gcp-api-gateway")

def gcpServiceLabelKey : Str := strOfString ("service")

def kAuthority : Str := strOfString (":authority")

def kUserAgent : Str := strOfString ("user-agent")

def gcpProtocolHTTP : Str := strOfString ("HTTP")

/-- `processMessage`: the events enqueued for one delivered message. The
JSON decoding of `msg.Data` (external `encoding/json`) is represented by
its result: `none` for an unmarshal error — logged, nothing enqueued —
and `some entry` for success, which maps the entry to one `APIEvent`
(hostname fallback chain: `resource.labels["service"]` if present and
non-empty, else `jsonPayload.api_name` if non-empty, else the fixed
placeholder) and enqueues it. `time.Now().Unix()` is the parameter
`now`. -/
def processMessage (now : Nat) (decoded : Option LogEntry) : List APIEvent :=
  match decoded with
  | none => []
  | some entry =>
    let hostname :=
      match mapGet entry.resource.labels gcpServiceLabelKey with
      | some service =>
        if service.isEmpty then
          (if entry.jsonPayload.apiName.isEmpty then gcpFallbackHostname
           else entry.jsonPayload.apiName)
        else service
      | none =>
        if entry.jsonPayload.apiName.isEmpty then gcpFallbackHostname
        else entry.jsonPayload.apiName
    let apiEvent : APIEvent :=
      { metadata :=
          { contextId := 0
            timestamp := now
            meshId := []
            nodeName := []
            receiverName := GCPAPIGateway
            receiverVersion := [] }
        source := { name := [], ns := [], ip := entry.httpRequest.remoteIp, port := 0 }
        destination :=
          { name := entry.jsonPayload.apiName
            ns := if entry.jsonPayload.location.isEmpty then [] else entry.jsonPayload.location
            ip := entry.httpRequest.serverIp
            port := 0 }
        request :=
          { headers :=
              [(kMethod, entry.httpRequest.requestMethod),
               (kAuthority, hostname),
               (kPath, entry.httpRequest.requestUrl),
               (kUserAgent, entry.httpRequest.userAgent)]
            body := [] }
        response :=
          { headers := [(kStatus, intToDec entry.httpRequest.status)]
            body := []
            backendLatencyInNanos := 0 }
        protocol := gcpProtocolHTTP }
    [apiEvent]

/-- The body of the `sub.Receive` callback in `Start`:
`processMessage(ctx, msg, apiEvents); msg.Ack()` — the acknowledgement is
unconditional. Returns the enqueued events and whether the message was
acknowledged. -/
def gcpReceiveCallback (now : Nat) (decoded : Option LogEntry) : List APIEvent × Bool :=
  (processMessage now decoded, true)

/-- C9: every delivered Pub/Sub message is acknowledged after processing,
whether or not JSON decoding succeeded; an unparseable payload enqueues
nothing (and is still acknowledged), a parsed one enqueues exactly one
event. -/
theorem gcp_message_always_acked (now : Nat) (decoded : Option LogEntry) :
    (gcpReceiveCallback now decoded).2 = true ∧
    (decoded = none → (gcpReceiveCallback now decoded).1 = []) ∧
    (∀ entry, decoded = some entry → (gcpReceiveCallback now decoded).1.length = 1) := by
  refine ⟨rfl, fun h => ?_, fun entry h => ?_⟩ <;> subst h <;> rfl

/-- Witness for C9: an undecodable message at time 17 is acknowledged with
nothing enqueued. -/
theorem gcp_message_always_acked_witness :
    (gcpReceiveCallback 17 none).2 = true ∧ (gcpReceiveCallback 17 none).1 = [] :=
  ⟨(gcp_message_always_acked 17 none).1, (gcp_message_always_acked 17 none).2.1 rfl⟩

/-! ## HTTP webhook exporter client construction
(`pkg/exporter/httpexporter.go`, `buildHTTPClient`) -/

structure WebhookTLSConfig where
  insecureSkipVerify : Bool
  caCertPath : Str
  clientCertPath : Str
  clientKeyPath : Str
  deriving DecidableEq, Repr

structure WebhookConfig where
  name : Str
  url : Str
  method : Str
  headers : List (Str × Str)
  tls : Option WebhookTLSConfig
  deriving DecidableEq, Repr

structure HttpConfig where
  enabled : Bool
  timeoutSeconds : Nat
  webhooks : List WebhookConfig
  deriving DecidableEq, Repr

/-- `x509.CertPool` (external library), as the PEM blobs appended to it. -/
abbrev CertPool := List Str

def x509NewCertPool : CertPool := []

def appendCertsFromPEM (pool : CertPool) (pem : Str) : CertPool := pool ++ [pem]

/-- `tls.Certificate` as produced by `tls.LoadX509KeyPair` (external
library), as the contents of the two loaded files. -/
structure TLSCertificate where
  certPEM : Str
  keyPEM : Str
  deriving DecidableEq, Repr

/-- The fields of Go's `tls.Config` that `buildHTTPClient` sets. -/
structure TLSClientConfig where
  minVersion : Nat
  rootCAs : Option CertPool
  certificates : List TLSCertificate
  insecureSkipVerify : Bool
  deriving DecidableEq, Repr

/-- `tls.VersionTLS12` (0x0303). -/
def tlsVersionTLS12 : Nat := 771

/-- The fields of Go's `http.Transport` that `buildHTTPClient` sets;
`tlsClientConfig = none` means no custom TLS configuration (Go default
verification). -/
structure Transport where
  tlsHandshakeTimeoutSeconds : Nat
  tlsClientConfig : Option TLSClientConfig
  deriving DecidableEq, Repr

structure HttpClient where
  timeoutSeconds : Nat
  transport : Transport
  deriving DecidableEq, Repr

/-- The file system seen by `os.ReadFile` and `tls.LoadX509KeyPair`:
contents per path, or a read error. -/
abbrev FileSystem := Str → Except Str Str

def httpsPrefix : Str := strOfString ("https://")

/-- The `if wh.TLS.CACertPath != ""` block: read the CA bundle into a
fresh pool on the shared config. -/
def tlsLoadCA (fs : FileSystem) (whTLS : WebhookTLSConfig) (cfg : TLSClientConfig) :
    Except Str TLSClientConfig :=
  if whTLS.caCertPath.isEmpty then .ok cfg
  else
    match fs whTLS.caCertPath with
    | .error e => .error e
    | .ok caCert =>
      .ok { cfg with rootCAs := some (appendCertsFromPEM x509NewCertPool caCert) }

/-- The `if wh.TLS.ClientCertPath != "" && wh.TLS.ClientKeyPath != ""`
block: load the client key pair onto the shared config. -/
def tlsLoadClientCert (fs : FileSystem) (whTLS : WebhookTLSConfig) (cfg : TLSClientConfig) :
    Except Str TLSClientConfig :=
  if whTLS.clientCertPath.isEmpty || whTLS.clientKeyPath.isEmpty then .ok cfg
  else
    match fs whTLS.clientCertPath, fs whTLS.clientKeyPath with
    | .ok certPem, .ok keyPem =>
      .ok { cfg with certificates := [{ certPEM := certPem, keyPEM := keyPem }] }
    | .error e, _ => .error e
    | .ok _, .error e => .error e

/-- One iteration of the `buildHTTPClient` webhook loop over the shared
`tlsConfig` (`none` until the first HTTPS webhook with a TLS block
allocates it with `MinVersion: TLS12`): skip non-HTTPS URLs and webhooks
without a TLS block; load the CA bundle when a path is set; load the
client key pair when both paths are set; set `InsecureSkipVerify` when
requested. A failed load aborts the whole construction. -/
def buildTLSStep (fs : FileSystem) (acc : Option TLSClientConfig) (wh : WebhookConfig) :
    Except Str (Option TLSClientConfig) :=
  if !isPrefixL httpsPrefix (lowerStr wh.url) then .ok acc
  else
    match wh.tls with
    | none => .ok acc
    | some whTLS =>
      let tlsConfig := acc.getD
        { minVersion := tlsVersionTLS12, rootCAs := none, certificates := []
          insecureSkipVerify := false }
      match tlsLoadCA fs whTLS tlsConfig with
      | .error e => .error e
      | .ok cfg1 =>
        match tlsLoadClientCert fs whTLS cfg1 with
        | .error e => .error e
        | .ok cfg2 =>
          .ok (some (if whTLS.insecureSkipVerify then { cfg2 with insecureSkipVerify := true }
                     else cfg2))

/-- The `for _, wh := range cfg.Exporter.HTTP.Webhooks` loop. -/
def buildTLSLoop (fs : FileSystem) :
    List WebhookConfig → Option TLSClientConfig → Except Str (Option TLSClientConfig)
  | [], acc => .ok acc
  | wh :: whs, acc =>
    match buildTLSStep fs acc wh with
    | .error e => .error e
    | .ok acc2 => buildTLSLoop fs whs acc2

/-- `buildHTTPClient`: one shared client whose transport carries the
union of all webhook TLS policies (custom TLS configuration only when
some HTTPS webhook supplied a TLS block). -/
def buildHTTPClient (fs : FileSystem) (cfg : HttpConfig) : Except Str HttpClient :=
  match buildTLSLoop fs cfg.webhooks none with
  | .error e => .error e
  | .ok tlsConfig =>
    .ok { timeoutSeconds := cfg.timeoutSeconds
          transport := { tlsHandshakeTimeoutSeconds := 10, tlsClientConfig := tlsConfig } }

/-! ## Mesh-extension reconciler (`pkg/receiver/svcmesh/gateway`)

Only the reconciler's tests (`Test_createWasmPlugin`,
`Test_deleteWasmPlugin`) are under `src/`; the definitions below are
modelled from the spec and pinned by those tests. -/

/-- Modelled from the spec: the `MeshExtensionResource` desired-state
record (the Istio `WasmPlugin` of the gateway receiver) — fixed name,
mesh root namespace, selector labels, plugin configuration, binary
URL+tag, priority and fail-open policy. -/
structure MeshExtensionResource where
  name : Str
  ns : Str
  selectorLabels : List (Str × Str)
  upstreamName : Str
  authority : Str
  apiPath : Str
  url : Str
  priority : Int
  failOpen : Bool
  deriving DecidableEq, Repr

/-- `FilterName` (pinned by the delete test's error message). -/
def FilterName : Str := strOfString ("http-filter-gateway")

/-- The "not found" error `deleteWasmPlugin` returns when the plugin is
absent, pinned verbatim by `Test_deleteWasmPlugin`. -/
def wasmPluginNotFoundMsg : Str := strOfString
  ("wasmplugins.extensions.istio.io \"http-filter-gateway\" not found")

/-- Modelled from the spec: `createWasmPlugin` (implementation not under
`src/`, only its tests) ensures the desired resource exists in the
cluster store; "already exists" is treated as success, the existing
resource is not re-applied or diffed. -/
def createWasmPlugin (desired : MeshExtensionResource)
    (store : List MeshExtensionResource) : Except Str (List MeshExtensionResource) :=
  if store.any fun r => r.name == desired.name && r.ns == desired.ns then .ok store
  else .ok (store ++ [desired])

/-- Modelled from the spec: `deleteWasmPlugin` (implementation not under
`src/`, only its tests) deletes the fixed-name resource from the mesh
root namespace; absence is reported as a "not found" error to the
caller. -/
def deleteWasmPlugin (ns : Str) (store : List MeshExtensionResource) :
    Except Str (List MeshExtensionResource) :=
  if store.any fun r => r.name == FilterName && r.ns == ns then
    .ok (store.filter fun r => !(r.name == FilterName && r.ns == ns))
  else .error wasmPluginNotFoundMsg

/-! ## Claim theorems: reconciler (C7) and TLS client construction (C6) -/

/-- C7: the reconciler's create is idempotent — when the resource already
exists, create returns no error and leaves the store unchanged; creating
twice from empty leaves exactly one, unchanged resource; delete on a
store without the resource returns the deterministic "not found" error
(propagated, not swallowed). -/
theorem wasmPlugin_create_idempotent_delete_notfound :
    (∀ (desired : MeshExtensionResource) (store : List MeshExtensionResource),
      (store.any fun r => r.name == desired.name && r.ns == desired.ns) = true →
      createWasmPlugin desired store = .ok store) ∧
    (∀ desired : MeshExtensionResource,
      createWasmPlugin desired [] = .ok [desired] ∧
      createWasmPlugin desired [desired] = .ok [desired]) ∧
    (∀ (ns : Str) (store : List MeshExtensionResource),
      (∀ r ∈ store, ¬(r.name = FilterName ∧ r.ns = ns)) →
      deleteWasmPlugin ns store = .error wasmPluginNotFoundMsg) := by
  refine ⟨fun desired store h => ?_, fun desired => ⟨?_, ?_⟩, fun ns store h => ?_⟩
  · simp [createWasmPlugin, h]
  · simp [createWasmPlugin]
  · simp [createWasmPlugin]
  · have hany : (store.any fun r => r.name == FilterName && r.ns == ns) = false := by
      simp only [List.any_eq_false, Bool.and_eq_true, beq_iff_eq, not_and]
      intro r hr h1 h2
      exact h r hr ⟨h1, h2⟩
    simp [deleteWasmPlugin, hany]

/-- A sample desired resource for the C7 witness (constants as pinned by
the gateway tests). -/
def sampleWasmPlugin : MeshExtensionResource :=
  { name := FilterName
    ns := strOfString ("istio-system")
    selectorLabels := [(strOfString ("istio"), strOfString ("ingressgateway"))]
    upstreamName := strOfString ("static-sentryflow")
    authority := strOfString ("static-sentryflow")
    apiPath := strOfString ("/api/v1/events")
    url := strOfString ("oci://sentryflow-httpfilter:gateway")
    priority := 100
    failOpen := true }

/-- Witness for C7: create on a store already holding the resource leaves
it unchanged; delete on an empty store reports "not found". -/
theorem wasmPlugin_create_idempotent_delete_notfound_witness :
    createWasmPlugin sampleWasmPlugin [sampleWasmPlugin] = .ok [sampleWasmPlugin] ∧
    deleteWasmPlugin (strOfString ("istio-system")) [] = .error wasmPluginNotFoundMsg :=
  ⟨wasmPlugin_create_idempotent_delete_notfound.1 sampleWasmPlugin [sampleWasmPlugin]
      (by decide),
    wasmPlugin_create_idempotent_delete_notfound.2.2 (strOfString ("istio-system")) []
      (by simp)⟩

/-- HTTPS webhooks without a TLS block (and non-HTTPS webhooks) leave the
shared `tlsConfig` untouched. -/
theorem buildTLSLoop_all_default (fs : FileSystem) (whs : List WebhookConfig)
    (h : ∀ wh ∈ whs, isPrefixL httpsPrefix (lowerStr wh.url) = true → wh.tls = none) :
    buildTLSLoop fs whs none = .ok none := by
  induction whs with
  | nil => rfl
  | cons wh whs ih =>
    have step : buildTLSStep fs none wh = .ok none := by
      by_cases hh : isPrefixL httpsPrefix (lowerStr wh.url) = true
      · simp [buildTLSStep, hh, h wh (by simp) hh]
      · simp [buildTLSStep, Bool.not_eq_true _ ▸ hh]
    simp only [buildTLSLoop, step]
    exact ih fun w hw => h w (List.mem_cons_of_mem _ hw)

/-- Loading a CA bundle does not change `InsecureSkipVerify`. -/
theorem tlsLoadCA_insecure (fs : FileSystem) (whTLS : WebhookTLSConfig)
    (cfg cfg' : TLSClientConfig) (h : tlsLoadCA fs whTLS cfg = .ok cfg') :
    cfg'.insecureSkipVerify = cfg.insecureSkipVerify := by
  unfold tlsLoadCA at h
  split at h
  · cases h; rfl
  · split at h <;> cases h
    rfl

/-- Loading a client key pair does not change `InsecureSkipVerify`. -/
theorem tlsLoadClientCert_insecure (fs : FileSystem) (whTLS : WebhookTLSConfig)
    (cfg cfg' : TLSClientConfig) (h : tlsLoadClientCert fs whTLS cfg = .ok cfg') :
    cfg'.insecureSkipVerify = cfg.insecureSkipVerify := by
  unfold tlsLoadClientCert at h
  split at h
  · cases h; rfl
  · split at h <;> cases h
    rfl

/-- Once `InsecureSkipVerify` is set on the shared config, no later loop
iteration unsets it. -/
theorem buildTLSStep_preserves_insecure (fs : FileSystem) (acc : Option TLSClientConfig)
    (wh : WebhookConfig) (c : TLSClientConfig) (hacc : acc = some c)
    (hc : c.insecureSkipVerify = true) (acc2 : Option TLSClientConfig)
    (hstep : buildTLSStep fs acc wh = .ok acc2) :
    ∃ c2, acc2 = some c2 ∧ c2.insecureSkipVerify = true := by
  subst hacc
  unfold buildTLSStep at hstep
  split at hstep
  · exact ⟨c, by simpa using hstep.symm, hc⟩
  · split at hstep
    · exact ⟨c, by simpa using hstep.symm, hc⟩
    · rename_i whTLS _
      simp only [Option.getD_some] at hstep
      split at hstep
      · exact absurd hstep (by simp)
      · rename_i cfg1 h1
        split at hstep
        · exact absurd hstep (by simp)
        · rename_i cfg2 h2
          have hins2 : cfg2.insecureSkipVerify = true := by
            rw [tlsLoadClientCert_insecure fs whTLS cfg1 cfg2 h2,
              tlsLoadCA_insecure fs whTLS c cfg1 h1, hc]
          refine ⟨_, by simpa using hstep.symm, ?_⟩
          split <;> simp [hins2]

/-- An HTTPS webhook whose TLS block requests `InsecureSkipVerify` sets it
on the shared config (whatever the accumulated config was). -/
theorem buildTLSStep_sets_insecure (fs : FileSystem) (acc : Option TLSClientConfig)
    (wh : WebhookConfig) (t : WebhookTLSConfig) (htls : wh.tls = some t)
    (hhttps : isPrefixL httpsPrefix (lowerStr wh.url) = true)
    (hins : t.insecureSkipVerify = true) (acc2 : Option TLSClientConfig)
    (hstep : buildTLSStep fs acc wh = .ok acc2) :
    ∃ c2, acc2 = some c2 ∧ c2.insecureSkipVerify = true := by
  unfold buildTLSStep at hstep
  rw [hhttps] at hstep
  simp only [Bool.not_true, Bool.false_eq_true, if_false, htls] at hstep
  split at hstep
  · exact absurd hstep (by simp)
  · rename_i cfg1 h1
    split at hstep
    · exact absurd hstep (by simp)
    · rename_i cfg2 h2
      refine ⟨_, by simpa using hstep.symm, ?_⟩
      rw [hins]
      simp

/-- Loop version of the two invariants above. -/
theorem buildTLSLoop_insecure (fs : FileSystem) (whs : List WebhookConfig) :
    ∀ (acc acc' : Option TLSClientConfig), buildTLSLoop fs whs acc = .ok acc' →
    ((∃ c, acc = some c ∧ c.insecureSkipVerify = true) ∨
      ∃ wh ∈ whs, ∃ t, isPrefixL httpsPrefix (lowerStr wh.url) = true ∧
        wh.tls = some t ∧ t.insecureSkipVerify = true) →
    ∃ c', acc' = some c' ∧ c'.insecureSkipVerify = true := by
  induction whs with
  | nil =>
    intro acc acc' hloop hd
    rcases hd with ⟨c, rfl, hc⟩ | ⟨wh, hwh, _⟩
    · exact ⟨c, by simpa [buildTLSLoop] using hloop.symm, hc⟩
    · simp at hwh
  | cons wh whs ih =>
    intro acc acc' hloop hd
    simp only [buildTLSLoop] at hloop
    rcases hstep : buildTLSStep fs acc wh with e | acc2
    · rw [hstep] at hloop; exact absurd hloop (by simp)
    · rw [hstep] at hloop
      rcases hd with ⟨c, rfl, hc⟩ | ⟨w, hw, t, hw1, hw2, hw3⟩
      · have := buildTLSStep_preserves_insecure fs _ wh c rfl hc acc2 hstep
        exact ih acc2 acc' hloop (Or.inl this)
      · rcases List.mem_cons.mp hw with rfl | hwtail
        · have := buildTLSStep_sets_insecure fs acc w t hw2 hw1 hw3 acc2 hstep
          exact ih acc2 acc' hloop (Or.inl this)
        · exact ih acc2 acc' hloop (Or.inr ⟨w, hwtail, t, hw1, hw2, hw3⟩)

/-- C6: the webhook client construction is a pure function of the webhook
configuration (and the file system it loads certificates from):
(1) when no HTTPS webhook supplies a TLS block the client has no custom
TLS configuration (default verification);
(2) when some HTTPS webhook sets `InsecureSkipVerify`, the successfully
built client's transport has a TLS configuration with
`InsecureSkipVerify` set;
(3) supplied CA-certificate and client certificate/key paths are loaded
and applied to the single shared transport. -/
theorem buildHTTPClient_tls_policies :
    (∀ (fs : FileSystem) (cfg : HttpConfig),
      (∀ wh ∈ cfg.webhooks, isPrefixL httpsPrefix (lowerStr wh.url) = true → wh.tls = none) →
      buildHTTPClient fs cfg = .ok
        { timeoutSeconds := cfg.timeoutSeconds
          transport := { tlsHandshakeTimeoutSeconds := 10, tlsClientConfig := none } }) ∧
    (∀ (fs : FileSystem) (cfg : HttpConfig) (client : HttpClient) (wh : WebhookConfig)
        (t : WebhookTLSConfig),
      wh ∈ cfg.webhooks → isPrefixL httpsPrefix (lowerStr wh.url) = true →
      wh.tls = some t → t.insecureSkipVerify = true →
      buildHTTPClient fs cfg = .ok client →
      ∃ c, client.transport.tlsClientConfig = some c ∧ c.insecureSkipVerify = true) ∧
    (∀ (fs : FileSystem) (nm url method : Str) (hdrs : List (Str × Str)) (insec : Bool)
        (p q r caPem certPem keyPem : Str) (timeout : Nat),
      isPrefixL httpsPrefix (lowerStr url) = true →
      p.isEmpty = false → q.isEmpty = false → r.isEmpty = false →
      fs p = .ok caPem → fs q = .ok certPem → fs r = .ok keyPem →
      buildHTTPClient fs
        { enabled := true, timeoutSeconds := timeout
          webhooks := [{ name := nm, url := url, method := method, headers := hdrs
                         tls := some { insecureSkipVerify := insec, caCertPath := p
                                       clientCertPath := q, clientKeyPath := r } }] } =
      .ok { timeoutSeconds := timeout
            transport :=
              { tlsHandshakeTimeoutSeconds := 10
                tlsClientConfig := some
                  { minVersion := tlsVersionTLS12
                    rootCAs := some [caPem]
                    certificates := [{ certPEM := certPem, keyPEM := keyPem }]
                    insecureSkipVerify := insec } } }) := by
  refine ⟨fun fs cfg h => ?_, fun fs cfg client wh t hwh hhttps htls hins hok => ?_,
    fun fs nm url method hdrs insec p q r caPem certPem keyPem timeout hhttps hp hq hr hfp
      hfq hfr => ?_⟩
  · simp [buildHTTPClient, buildTLSLoop_all_default fs cfg.webhooks h]
  · unfold buildHTTPClient at hok
    rcases hloop : buildTLSLoop fs cfg.webhooks none with e | tlsCfg
    · rw [hloop] at hok; exact absurd hok (by simp)
    · rw [hloop] at hok
      obtain ⟨c', hc', hc'i⟩ := buildTLSLoop_insecure fs cfg.webhooks none tlsCfg hloop
        (Or.inr ⟨wh, hwh, t, hhttps, htls, hins⟩)
      refine ⟨c', ?_, hc'i⟩
      have : client = { timeoutSeconds := cfg.timeoutSeconds
                        transport := { tlsHandshakeTimeoutSeconds := 10
                                       tlsClientConfig := tlsCfg } } := by
        simpa using hok.symm
      rw [this, hc']
  · simp only [buildHTTPClient, buildTLSLoop, buildTLSStep, tlsLoadCA, tlsLoadClientCert,
      hhttps, Bool.not_true, Bool.false_eq_true, if_false, Option.getD_none, hp, hq, hr,
      hfp, hfq, hfr, Bool.or_self, appendCertsFromPEM, x509NewCertPool]
    cases insec <;> simp [buildTLSLoop]

/-- An empty file system for the C6 witness (no certificate is loaded). -/
def c6EmptyFs : FileSystem := fun _ => .error []

/-- A file system mapping every path `s` to contents `s ++ [33]`. -/
def c6MarkFs : FileSystem := fun s => .ok (s ++ [33])

/-- Witness webhook: HTTPS URL, no TLS block. -/
def c6Wh1 : WebhookConfig :=
  { name := strOfString ("w1"), url := strOfString ("https://example.com")
    method := strOfString ("POST"), headers := [], tls := none }

/-- Witness webhook: HTTPS URL, `InsecureSkipVerify: true`. -/
def c6Wh2 : WebhookConfig :=
  { name := strOfString ("w2"), url := strOfString ("https://example.com")
    method := strOfString ("POST"), headers := []
    tls := some { insecureSkipVerify := true, caCertPath := []
                  clientCertPath := [], clientKeyPath := [] } }

def c6Cfg1 : HttpConfig := { enabled := true, timeoutSeconds := 5, webhooks := [c6Wh1] }

def c6Cfg2 : HttpConfig := { enabled := true, timeoutSeconds := 5, webhooks := [c6Wh2] }

/-- The client `buildHTTPClient` produces for `c6Cfg2`. -/
def c6Client2 : HttpClient :=
  { timeoutSeconds := 5
    transport :=
      { tlsHandshakeTimeoutSeconds := 10
        tlsClientConfig := some
          { minVersion := tlsVersionTLS12, rootCAs := none, certificates := []
            insecureSkipVerify := true } } }

/-- Witness for C6 at concrete configurations: an HTTPS webhook without a
TLS block (part 1), one with `InsecureSkipVerify` (part 2), and one with
CA and client certificate paths (part 3). -/
theorem buildHTTPClient_tls_policies_witness :
    buildHTTPClient c6EmptyFs c6Cfg1 =
      .ok { timeoutSeconds := 5
            transport := { tlsHandshakeTimeoutSeconds := 10, tlsClientConfig := none } } ∧
    (∃ c, c6Client2.transport.tlsClientConfig = some c ∧ c.insecureSkipVerify = true) ∧
    buildHTTPClient c6MarkFs
        { enabled := true, timeoutSeconds := 7
          webhooks := [{ name := strOfString ("w3")
                         url := strOfString ("https://internal.example")
                         method := strOfString ("POST"), headers := []
                         tls := some { insecureSkipVerify := false
                                       caCertPath := strOfString ("ca.pem")
                                       clientCertPath := strOfString ("tls.crt")
                                       clientKeyPath := strOfString ("tls.key") } }] } =
      .ok { timeoutSeconds := 7
            transport :=
              { tlsHandshakeTimeoutSeconds := 10
                tlsClientConfig := some
                  { minVersion := tlsVersionTLS12
                    rootCAs := some [strOfString ("ca.pem") ++ [33]]
                    certificates := [{ certPEM := strOfString ("tls.crt") ++ [33]
                                       keyPEM := strOfString ("tls.key") ++ [33] }]
                    insecureSkipVerify := false } } } := by
  refine ⟨?_, ?_, ?_⟩
  · exact buildHTTPClient_tls_policies.1 c6EmptyFs c6Cfg1
      (by intro wh hwh; simp [c6Cfg1] at hwh; subst hwh; intro; rfl)
  · exact buildHTTPClient_tls_policies.2.1 c6EmptyFs c6Cfg2 c6Client2 c6Wh2
      { insecureSkipVerify := true, caCertPath := [], clientCertPath := []
        clientKeyPath := [] }
      (by simp [c6Cfg2]) (by decide) rfl rfl rfl
  · exact buildHTTPClient_tls_policies.2.2 c6MarkFs (strOfString ("w3"))
      (strOfString ("https://internal.example")) (strOfString ("POST")) [] false
      (strOfString ("ca.pem")) (strOfString ("tls.crt")) (strOfString ("tls.key"))
      (strOfString ("ca.pem") ++ [33]) (strOfString ("tls.crt") ++ [33])
      (strOfString ("tls.key") ++ [33]) 7 (by decide) (by decide) (by decide) (by decide)
      rfl rfl rfl

/-! ## Concrete F5 log lines used in the claim theorems -/

/-- Both sentinels present, exactly 10 space-separated fields in between:
passes the `len(parts) < 10` guard, then `parts[10]` is out of range. -/
def f5LineTenFields : Str := strOfString
  ("__HSL_START__ __HSL_START__ __HSL_START__ __HSL_START__ __HSL_START__ __HSL_START__ a b c d e f g h i j __HSL_END__")

/-- Both sentinels, 11 fields: `parts[11]` is out of range. -/
def f5LineElevenFields : Str := strOfString
  ("__HSL_START__ __HSL_START__ __HSL_START__ __HSL_START__ __HSL_START__ __HSL_START__ a b c d e f g h i j k __HSL_END__")

/-- Both sentinels, 9 fields: the `len(parts) < 10` branch logs on the nil
package logger. -/
def f5LineNineFields : Str := strOfString
  ("__HSL_START__ __HSL_START__ __HSL_START__ __HSL_START__ __HSL_START__ __HSL_START__ a b c d e f g h i __HSL_END__")

/-- A line with neither sentinel. -/
def f5LineNoSentinels : Str := strOfString ("GET /index.html HTTP/1.1 200")

/-- A line with the start sentinel but no end sentinel. -/
def f5LineOnlyStart : Str := strOfString
  ("__HSL_START__ __HSL_START__ __HSL_START__ __HSL_START__ __HSL_START__ __HSL_START__ http /a GET - 1.2.3.4 80 5.6.7.8 90 HTTP/1.1 200 1000 1050")

/-- A well-formed 12-field line whose response-time (999) is smaller than
its request-time (1000). -/
def f5LineTimeWrap : Str := strOfString
  ("__HSL_START__ __HSL_START__ __HSL_START__ __HSL_START__ __HSL_START__ __HSL_START__ http /a GET - 1.2.3.4 8080 5.6.7.8 9090 HTTP/1.1 200 1000 999 __HSL_END__")

/-- A 12-field line whose source-port field (`abc`) and request-time field
(`12x4`) are not numeric. -/
def f5LineBadNumbers : Str := strOfString
  ("__HSL_START__ __HSL_START__ __HSL_START__ __HSL_START__ __HSL_START__ __HSL_START__ http /a GET - 1.2.3.4 abc 5.6.7.8 9090 HTTP/1.1 200 12x4 1050 __HSL_END__")

/-- A well-formed 12-field line with request-time 1000 and
response-time 1050. -/
def f5LineLatencyExample : Str := strOfString
  ("__HSL_START__ __HSL_START__ __HSL_START__ __HSL_START__ __HSL_START__ __HSL_START__ http /a GET - 1.2.3.4 8080 5.6.7.8 9090 HTTP/1.1 200 1000 1050 __HSL_END__")

/-! ## Claim theorems: fan-out (C1) and orchestrator reload (C8) -/

/-- C1: for an event dequeued by the fan-out stage, the pushes to the two
output queues are independent and non-blocking: if the gRPC queue is full
and the HTTP queue is not, the event is dropped for gRPC only (its drop
counter increments by exactly 1, its queue is unchanged) while the push to
the HTTP queue succeeds (the event is appended, no HTTP drop) — and
symmetrically; the received counter increments either way. -/
theorem fanOutStep_full_drops_only_that_output {α : Type} (s : FanoutState α) (ev : α) :
    (chanFull s.grpcOut = true → chanFull s.httpOut = false →
      (fanOutStep s ev).grpcOut = s.grpcOut ∧
      (fanOutStep s ev).stats.grpcDrop = s.stats.grpcDrop + 1 ∧
      (fanOutStep s ev).httpOut.buf = s.httpOut.buf ++ [ev] ∧
      (fanOutStep s ev).httpOut.cap = s.httpOut.cap ∧
      (fanOutStep s ev).stats.httpDrop = s.stats.httpDrop ∧
      (fanOutStep s ev).stats.inCount = s.stats.inCount + 1) ∧
    (chanFull s.httpOut = true → chanFull s.grpcOut = false →
      (fanOutStep s ev).httpOut = s.httpOut ∧
      (fanOutStep s ev).stats.httpDrop = s.stats.httpDrop + 1 ∧
      (fanOutStep s ev).grpcOut.buf = s.grpcOut.buf ++ [ev] ∧
      (fanOutStep s ev).grpcOut.cap = s.grpcOut.cap ∧
      (fanOutStep s ev).stats.grpcDrop = s.stats.grpcDrop ∧
      (fanOutStep s ev).stats.inCount = s.stats.inCount + 1) := by
  constructor
  · intro hg hh
    simp only [chanFull, decide_eq_true_eq, decide_eq_false_iff_not, not_le] at hg hh
    simp only [fanOutStep, trySend, if_neg (by omega : ¬ s.grpcOut.buf.length < s.grpcOut.cap),
      if_pos hh]
    simp
  · intro hh hg
    simp only [chanFull, decide_eq_true_eq, decide_eq_false_iff_not, not_le] at hg hh
    simp only [fanOutStep, trySend, if_neg (by omega : ¬ s.httpOut.buf.length < s.httpOut.cap),
      if_pos hg]
    simp

/-- Witness for C1 at a concrete state: gRPC queue of capacity 1 holding
one event (full), HTTP queue of capacity 1 empty. -/
theorem fanOutStep_full_drops_only_that_output_witness :
    chanFull (Chan.mk 1 [0] : Chan Nat) = true ∧
    chanFull (Chan.mk 1 [] : Chan Nat) = false ∧
    (fanOutStep ⟨Chan.mk 1 [0], Chan.mk 1 [], ⟨4, 2, 3⟩⟩ 7).grpcOut = Chan.mk 1 [0] ∧
    (fanOutStep ⟨Chan.mk 1 [0], Chan.mk 1 [], ⟨4, 2, 3⟩⟩ 7).stats.grpcDrop = 2 + 1 ∧
    (fanOutStep ⟨Chan.mk 1 [0], Chan.mk 1 [], ⟨4, 2, 3⟩⟩ 7).httpOut.buf = [] ++ [7] ∧
    (fanOutStep ⟨Chan.mk 1 [0], Chan.mk 1 [], ⟨4, 2, 3⟩⟩ 7).stats.httpDrop = 3 := by
  have h := (fanOutStep_full_drops_only_that_output
    (⟨Chan.mk 1 [0], Chan.mk 1 [], ⟨4, 2, 3⟩⟩ : FanoutState Nat) 7).1 (by decide) (by decide)
  exact ⟨by decide, by decide, h.1, h.2.1, h.2.2.1, h.2.2.2.2.1⟩

/-- C8: every action the configuration-change branch of `Manager.run`
performs leaves the ingestion queue, both output queues, the fan-out task
and both exporter tasks untouched, for every combination of "new config
needs a k8s client", "client construction fails" and "receiver init
fails". -/
theorem reloadBranch_preserves_pipeline (needsK8s k8sErr recvInitErr : Bool)
    (a : ManagerAction) (ha : a ∈ reloadBranch needsK8s k8sErr recvInitErr) :
    touchesPipeline a = false := by
  have hsub : a = ManagerAction.cancelReceiversScope ∨ a = ManagerAction.buildK8sClient ∨
      a = ManagerAction.startReceivers ∨ a = ManagerAction.returnFromRun := by
    cases needsK8s <;> cases k8sErr <;> cases recvInitErr <;>
      simp_all [reloadBranch] <;> tauto
  rcases hsub with rfl | rfl | rfl | rfl <;> rfl

/-- Witness for C8: the `startReceivers` action of a reload that rebuilds
the k8s client and succeeds. -/
theorem reloadBranch_preserves_pipeline_witness :
    touchesPipeline ManagerAction.startReceivers = false :=
  reloadBranch_preserves_pipeline true false false ManagerAction.startReceivers (by decide)

/-! ## Claim theorems: F5 parser crash behaviour (C2, C3) -/

/-- C2 (code bug): the source guards with `len(parts) < 10` but reads
`parts[10]` and `parts[11]`, so a sentinel-delimited line with 10 or 11
fields is not dropped — it crashes with an index-out-of-range panic; a
line with fewer than 10 fields reaches the drop branch, whose log call
panics on the nil package logger instead of logging. -/
theorem parseF5LogLine_few_fields_panics :
    parseF5LogLine f5LineTenFields = .panic .indexOutOfRange ∧
    parseF5LogLine f5LineElevenFields = .panic .indexOutOfRange ∧
    parseF5LogLine f5LineNineFields = .panic .nilLogger := by
  refine ⟨by decide, by decide, by decide⟩

/-- C3 (code bug): a line missing one or both sentinels reaches
`logger.Error("missing HSL_START or HSL_END")` on the package-level
logger, which `Start` never assigns (its `:=` declares a shadowing local),
so the call panics on a nil receiver instead of logging and dropping. -/
theorem parseF5LogLine_missing_sentinel_panics :
    parseF5LogLine f5LineNoSentinels = .panic .nilLogger ∧
    parseF5LogLine f5LineOnlyStart = .panic .nilLogger := by
  refine ⟨by decide, by decide⟩

/-! ## Latency arithmetic helpers -/

theorem wrap64_emod (x : Int) : wrap64 x % 2 ^ 64 = x % 2 ^ 64 := by
  unfold wrap64
  omega

theorem toUInt64_cast (x : Int) : (toUInt64 x : Int) = x % 2 ^ 64 := by
  unfold toUInt64
  omega

theorem wrap64_eq_self (x : Int) (h1 : -(2 ^ 63) ≤ x) (h2 : x < 2 ^ 63) : wrap64 x = x := by
  unfold wrap64
  omega

/-- The latency field of any event `f5EventOfParts` builds is the
Go-wrapped `uint64((respTime - reqTime) * 1_000_000)` of the two time
fields. -/
theorem f5EventOfParts_latency (parts : List Str) (ev : APIEvent)
    (hev : f5EventOfParts parts = .event ev) :
    ev.response.backendLatencyInNanos =
      toUInt64 (wrap64 (wrap64 (goParseInt64 (parts.getD 11 []) -
        goParseInt64 (parts.getD 10 [])) * 1000000)) := by
  simp only [f5EventOfParts] at hev
  split at hev
  · split at hev
    · cases hev
      rfl
    · cases hev
  · cases hev
    rfl

/-- The produced backend latency is always the Go-wrapped value
`uint64((respTime - reqTime) * 1_000_000)` of the two parsed times. -/
theorem parseF5LogLine_latency (line : Str) (r s : Int)
    (ht : f5ReqRespTimes line = some (r, s)) (ev : APIEvent)
    (hev : parseF5LogLine line = .event ev) :
    ev.response.backendLatencyInNanos = toUInt64 (wrap64 (wrap64 (s - r) * 1000000)) := by
  unfold parseF5LogLine at hev
  unfold f5ReqRespTimes at ht
  rcases hf : f5Fields line with k | parts <;> rw [hf] at hev ht <;>
    dsimp only at hev ht
  · cases ht
  · obtain ⟨hr, hs⟩ : goParseInt64 (parts.getD 10 []) = r ∧
        goParseInt64 (parts.getD 11 []) = s := by
      simpa using ht
    rw [f5EventOfParts_latency parts ev hev, hr, hs]

/-- Syntactically invalid numeric fields parse to 0 (the Go error is
discarded). -/
theorem goParseInt64_syntax_error (t : Str) (h : goIntSyntaxOk t = false) :
    goParseInt64 t = 0 := by
  cases t with
  | nil => rfl
  | cons b rest =>
    by_cases h43 : b = 43
    · subst h43
      simp only [goIntSyntaxOk] at h
      cases hd : decVal rest with
      | some v => rw [hd] at h; simp at h
      | none => simp [goParseInt64, hd]
    · by_cases h45 : b = 45
      · subst h45
        simp only [goIntSyntaxOk] at h
        cases hd : decVal rest with
        | some v => rw [hd] at h; simp at h
        | none => simp [goParseInt64, hd]
      · unfold goParseInt64
        split
        · rename_i heq
          cases heq
          exact absurd rfl h43
        · rename_i heq
          cases heq
          exact absurd rfl h45
        · unfold goIntSyntaxOk at h
          split at h
          · rename_i heq
            cases heq
            exact absurd rfl h43
          · rename_i heq
            cases heq
            exact absurd rfl h45
          · cases hd : decVal (b :: rest) with
            | some v => rw [hd] at h; simp at h
            | none => rfl

/-! ## Claim theorems: latency (C5, C10) -/

/-- C5 counterexample: `f5LineTimeWrap` parses with request-time 1000 and
response-time 999, yet the produced backend latency is
`2^64 − 1 000 000`, not `(999 − 1000) × 1 000 000`: the code converts the
signed difference to `uint64`, wrapping modulo `2^64`. -/
theorem latency_formula_counterexample :
    f5ReqRespTimes f5LineTimeWrap = some (1000, 999) ∧
    eventLatencyZ? (parseF5LogLine f5LineTimeWrap) = some (2 ^ 64 - 1000000) ∧
    (2 ^ 64 - 1000000 : Int) ≠ (999 - 1000) * 1000000 := by
  refine ⟨by decide, by decide, by decide⟩

/-- C5 (amended): for every parsed line with request-time `r` and
response-time `s` such that `r ≤ s` and `(s − r) × 1 000 000 < 2^64`, the
produced event's backend latency in nanoseconds equals
`(s − r) × 1 000 000` (in particular request-time 1000 and response-time
1050 yield 50 000 000; without the bounds the value is wrapped modulo
`2^64`, see C10). -/
theorem parseF5LogLine_latency_millis_to_nanos (line : Str) (r s : Int)
    (ht : f5ReqRespTimes line = some (r, s)) (ev : APIEvent)
    (hev : parseF5LogLine line = .event ev)
    (hle : 0 ≤ s - r) (hlt : (s - r) * 1000000 < 2 ^ 64) :
    (ev.response.backendLatencyInNanos : Int) = (s - r) * 1000000 := by
  rw [parseF5LogLine_latency line r s ht ev hev]
  have hsr : wrap64 (s - r) = s - r := by
    apply wrap64_eq_self <;> omega
  rw [hsr, toUInt64_cast, wrap64_emod, Int.emod_eq_of_lt (by omega) hlt]

/-- Witness for C5 at the spec's example: request-time 1000,
response-time 1050 give backend latency 50 000 000 ns. -/
theorem parseF5LogLine_latency_millis_to_nanos_witness :
    f5ReqRespTimes f5LineLatencyExample = some (1000, 1050) ∧
    ∃ ev, parseF5LogLine f5LineLatencyExample = .event ev ∧
      (ev.response.backendLatencyInNanos : Int) = (1050 - 1000) * 1000000 := by
  have h1 : f5ReqRespTimes f5LineLatencyExample = some (1000, 1050) := by decide
  refine ⟨h1, ?_⟩
  rcases hev : parseF5LogLine f5LineLatencyExample with ev | k
  · exact ⟨ev, rfl, parseF5LogLine_latency_millis_to_nanos f5LineLatencyExample 1000 1050 h1
      ev hev (by decide) (by decide)⟩
  · exfalso
    have hisev : isEvent (parseF5LogLine f5LineLatencyExample) = true := by decide
    rw [hev] at hisev
    simp [isEvent, parsedEvent?] at hisev

/-- C10: when the parsed response-time `s` is smaller than the parsed
request-time `r`, the backend latency is not an error or zero but
`(s − r) × 1 000 000` reinterpreted as an unsigned 64-bit value (taken
modulo `2^64`); likewise, non-numeric port or time fields silently parse
to 0 (errors discarded) rather than dropping the line — `f5LineBadNumbers`
(port `abc`, request-time `12x4`) still yields an event, with source port
0 and times (0, 1050). -/
theorem parseF5LogLine_latency_wraps_modulo :
    (∀ (line : Str) (r s : Int), f5ReqRespTimes line = some (r, s) →
      ∀ ev, parseF5LogLine line = .event ev → s < r →
      (ev.response.backendLatencyInNanos : Int) = (s - r) * 1000000 % 2 ^ 64) ∧
    (∀ t : Str, goIntSyntaxOk t = false → goParseInt64 t = 0) ∧
    f5ReqRespTimes f5LineBadNumbers = some (0, 1050) ∧
    isEvent (parseF5LogLine f5LineBadNumbers) = true ∧
    (parsedEvent? (parseF5LogLine f5LineBadNumbers)).map (fun e => e.source.port) = some 0 ∧
    goIntSyntaxOk (strOfString ("abc")) = false ∧
    goIntSyntaxOk (strOfString ("12x4")) = false := by
  refine ⟨fun line r s ht ev hev _ => ?_, goParseInt64_syntax_error,
    by decide, by decide, by decide, by decide, by decide⟩
  rw [parseF5LogLine_latency line r s ht ev hev, toUInt64_cast, wrap64_emod,
    Int.mul_emod, wrap64_emod, ← Int.mul_emod]

/-- Witness for C10 (the universally quantified parts applied at
`f5LineTimeWrap`, whose times are r = 1000, s = 999): the produced
latency is `(999 − 1000) × 1 000 000 mod 2^64`, and `abc` parses to 0. -/
theorem parseF5LogLine_latency_wraps_modulo_witness :
    (∃ ev, parseF5LogLine f5LineTimeWrap = .event ev ∧
      (ev.response.backendLatencyInNanos : Int) = (999 - 1000) * 1000000 % 2 ^ 64) ∧
    goParseInt64 (strOfString ("abc")) = 0 := by
  constructor
  · have h1 : f5ReqRespTimes f5LineTimeWrap = some (1000, 999) := by decide
    rcases hev : parseF5LogLine f5LineTimeWrap with ev | k
    · exact ⟨ev, rfl, parseF5LogLine_latency_wraps_modulo.1 f5LineTimeWrap 1000 999 h1 ev hev
        (by decide)⟩
    · exfalso
      have hisev : isEvent (parseF5LogLine f5LineTimeWrap) = true := by decide
      rw [hev] at hisev
      simp [isEvent, parsedEvent?] at hisev
  · exact parseF5LogLine_latency_wraps_modulo.2.1 (strOfString ("abc")) (by decide)

/-! ## Round-trip development for the line protocol (C4): list lemmas -/

theorem isPrefixL_append_self (pat r : Str) : isPrefixL pat (pat ++ r) = true := by
  induction pat with
  | nil => rfl
  | cons p ps ih => simp [isPrefixL, ih]

theorem firstIdx_of_prefixL {pat s : Str} (h : isPrefixL pat s = true) :
    firstIdx pat s = some 0 := by
  cases s with
  | nil => simp [firstIdx, h]
  | cons c cs => simp [firstIdx, h]

theorem splitCh_nosep {w : Str} (h : ∀ b ∈ w, (b == 32) = false) : splitCh 32 w = [w] := by
  induction w with
  | nil => rfl
  | cons b bs ih =>
    have hb := h b (by simp)
    simp only [splitCh, hb, Bool.false_eq_true, if_false]
    rw [ih fun x hx => h x (by simp [hx])]

theorem splitCh_append_sep {w : Str} (r : Str) (h : ∀ b ∈ w, (b == 32) = false) :
    splitCh 32 (w ++ 32 :: r) = w :: splitCh 32 r := by
  induction w with
  | nil => simp [splitCh]
  | cons b bs ih =>
    have hb := h b (by simp)
    simp only [List.cons_append, splitCh, hb, Bool.false_eq_true, if_false, List.append_eq]
    rw [ih fun x hx => h x (by simp [hx])]

theorem splitCh_joinSep {ws : List Str} (hne : ws ≠ [])
    (h : ∀ w ∈ ws, ∀ b ∈ w, (b == 32) = false) :
    splitCh 32 (joinSep [32] ws) = ws := by
  induction ws with
  | nil => exact absurd rfl hne
  | cons w ws ih =>
    cases ws with
    | nil => exact splitCh_nosep (h w (by simp))
    | cons v vs =>
      have hj : joinSep [32] (w :: v :: vs) = w ++ 32 :: joinSep [32] (v :: vs) := by
        simp [joinSep]
      rw [hj, splitCh_append_sep _ (h w (by simp)),
        ih (by simp) fun x hx => h x (by simp [hx])]

theorem trimSpace_pad {m : Str} {a z : Nat} {x y : Str}
    (hm : m = a :: x) (ha : isSpaceB a = false)
    (hrev : m.reverse = z :: y) (hz : isSpaceB z = false) :
    trimSpace (32 :: (m ++ [32])) = m := by
  unfold trimSpace
  have h1 : List.dropWhile isSpaceB (32 :: (m ++ [32])) = m ++ [32] := by
    rw [List.dropWhile_cons_of_pos (by rfl)]
    rw [hm, List.cons_append, List.dropWhile_cons_of_neg (by simp [ha])]
  rw [h1, List.reverse_append, hrev]
  have h2 : List.dropWhile isSpaceB ([32].reverse ++ z :: y) = z :: y := by
    rw [show ([32] : Str).reverse = [32] from rfl, List.cons_append, List.nil_append,
      List.dropWhile_cons_of_pos (by rfl), List.dropWhile_cons_of_neg (by simp [hz])]
  rw [h2, ← hrev, List.reverse_reverse]

/-! ### Numeric encode/parse round trip -/

theorem natDecDigitsF_digits :
    ∀ f n, n ≤ f → ∀ b ∈ natDecDigitsF f n, 48 ≤ b ∧ b ≤ 57 := by
  intro f
  induction f with
  | zero =>
    intro n hn
    interval_cases n
    simp [natDecDigitsF]
  | succ f ih =>
    intro n hn b hb
    cases n with
    | zero => simp [natDecDigitsF] at hb
    | succ m =>
      simp only [natDecDigitsF, List.mem_append, List.mem_singleton] at hb
      rcases hb with hb | rfl
      · exact ih ((m + 1) / 10) (by omega) b hb
      · omega

theorem natDecDigitsF_ne_nil (f n : Nat) (hn : n ≤ f) (hpos : 0 < n) :
    natDecDigitsF f n ≠ [] := by
  cases f with
  | zero => omega
  | succ f =>
    cases n with
    | zero => omega
    | succ m => simp [natDecDigitsF]

theorem natDecDigitsF_zero (f : Nat) : natDecDigitsF f 0 = [] := by
  cases f <;> rfl

theorem decStep_digit (acc : Option Nat) (b : Nat) (h1 : 48 ≤ b) (h2 : b ≤ 57) :
    decStep acc b = acc.map fun v => v * 10 + (b - 48) := by
  unfold decStep
  rw [if_pos (by simp [h1, h2])]

theorem decVal_natDecDigitsF :
    ∀ f n, n ≤ f → 0 < n → decVal (natDecDigitsF f n) = some n := by
  intro f
  induction f with
  | zero => omega
  | succ f ih =>
    intro n hn hpos
    cases n with
    | zero => omega
    | succ m =>
      simp only [natDecDigitsF]
      by_cases hq : (m + 1) / 10 = 0
      · rw [hq, natDecDigitsF_zero, List.nil_append]
        have hr : (m + 1) % 10 = m + 1 := by omega
        rw [hr]
        unfold decVal
        rw [if_neg (by simp)]
        show decStep (some 0) (m + 1 + 48) = some (m + 1)
        rw [decStep_digit _ _ (by omega) (by omega)]
        simp
      · have hih := ih ((m + 1) / 10) (by omega) (by omega)
        have hne := natDecDigitsF_ne_nil f ((m + 1) / 10) (by omega) (by omega)
        have hfold : (natDecDigitsF f ((m + 1) / 10)).foldl decStep (some 0) =
            some ((m + 1) / 10) := by
          unfold decVal at hih
          rwa [if_neg (by simpa [List.isEmpty_iff] using hne)] at hih
        unfold decVal
        rw [if_neg (by simp [List.isEmpty_iff, hne])]
        rw [List.foldl_append, hfold]
        show decStep (some ((m + 1) / 10)) ((m + 1) % 10 + 48) = some (m + 1)
        rw [decStep_digit _ _ (by omega) (by omega)]
        show some ((m + 1) / 10 * 10 + ((m + 1) % 10 + 48 - 48)) = some (m + 1)
        congr 1
        omega

theorem decVal_natToDec (n : Nat) : decVal (natToDec n) = some n := by
  cases n with
  | zero => decide
  | succ m =>
    unfold natToDec
    rw [if_neg (by omega)]
    exact decVal_natDecDigitsF (m + 1) (m + 1) le_rfl (by omega)

theorem natToDec_digits (n : Nat) : ∀ b ∈ natToDec n, 48 ≤ b ∧ b ≤ 57 := by
  cases n with
  | zero => simp [natToDec]
  | succ m =>
    unfold natToDec
    rw [if_neg (by omega)]
    exact natDecDigitsF_digits (m + 1) (m + 1) le_rfl

theorem goParseInt64_natToDec (n : Nat) (h : (n : Int) ≤ 2 ^ 63 - 1) :
    goParseInt64 (natToDec n) = (n : Int) := by
  have hd := natToDec_digits n
  unfold goParseInt64
  split
  · rename_i rest heq
    have := hd 43 (by rw [heq]; simp)
    omega
  · rename_i rest heq
    have := hd 45 (by rw [heq]; simp)
    omega
  · rw [decVal_natToDec n]
    show (if (n : Int) > 2 ^ 63 - 1 then ((2 : Int) ^ 63 - 1) else (n : Int)) = (n : Int)
    rw [if_neg (by omega)]

theorem toUInt64_natCast (n : Nat) (h : (n : Int) < 2 ^ 64) : toUInt64 (n : Int) = n := by
  unfold toUInt64
  omega

theorem toInt32_natCast (n : Nat) (h : n < 2 ^ 31) : toInt32 (n : Int) = (n : Int) := by
  unfold toInt32
  omega

/-- The latency the parser computes for in-range encoded times. -/
theorem latency_wrap_eval (r s : Nat) (hrs : r ≤ s) (hs : s < 2 ^ 43) :
    toUInt64 (wrap64 (wrap64 ((s : Int) - (r : Int)) * 1000000)) = (s - r) * 1000000 := by
  have h1 : wrap64 ((s : Int) - (r : Int)) = (s : Int) - (r : Int) := by
    apply wrap64_eq_self <;> omega
  rw [h1]
  have h2 : wrap64 (((s : Int) - (r : Int)) * 1000000) = ((s : Int) - (r : Int)) * 1000000 := by
    apply wrap64_eq_self <;> omega
  rw [h2]
  unfold toUInt64
  have h3 : (0 : Int) ≤ ((s : Int) - (r : Int)) * 1000000 := by omega
  have h4 : ((s : Int) - (r : Int)) * 1000000 < 2 ^ 64 := by omega
  rw [Int.emod_eq_of_lt h3 h4,
    show ((s : Int) - (r : Int)) * 1000000 = (((s - r) * 1000000 : Nat) : Int) from by omega,
    Int.toNat_natCast]

/-! ### Header-map fold lemmas -/

/-- One encoded header entry: `key __HEAV__ value`. -/
def entryStr (kv : Str × Str) : Str := kv.1 ++ HEAV ++ kv.2

/-- A header entry after the parser's trimming. -/
def trimKV (kv : Str × Str) : Str × Str :=
  (trimUnd (trimSpace kv.1), trimUnd (trimSpace kv.2))

theorem mapSet_append {m : HMap} {k : Str} (v : Str)
    (h : ∀ p ∈ m, (p.1 == k) = false) : mapSet m k v = m ++ [(k, v)] := by
  induction m with
  | nil => rfl
  | cons p rest ih =>
    simp only [mapSet, h p (by simp), Bool.false_eq_true, if_false, List.cons_append]
    rw [ih fun q hq => h q (by simp [hq])]

theorem headerFold_entry (m : HMap) (kv : Str × Str)
    (h : firstIdx HEAV (entryStr kv) = some kv.1.length) :
    headerFold m (entryStr kv) =
      mapSet m (trimUnd (trimSpace kv.1)) (trimUnd (trimSpace kv.2)) := by
  unfold headerFold
  rw [if_pos (by simp [containsSub, h])]
  unfold splitN2
  rw [h]
  have ht : (entryStr kv).take kv.1.length = kv.1 := by
    unfold entryStr
    rw [List.append_assoc, List.take_left]
  have hd : (entryStr kv).drop (kv.1.length + HEAV.length) = kv.2 := by
    unfold entryStr
    rw [show kv.1.length + HEAV.length = (kv.1 ++ HEAV).length by simp, List.drop_left]
  dsimp only
  rw [ht, hd]

theorem foldl_headerFold (hs : List (Str × Str)) (m : HMap)
    (h8 : ∀ kv ∈ hs, firstIdx HEAV (entryStr kv) = some kv.1.length)
    (hnew : ∀ kv ∈ hs, ∀ p ∈ m, (p.1 == trimUnd (trimSpace kv.1)) = false)
    (hnodup : (hs.map fun kv => trimUnd (trimSpace kv.1)).Nodup) :
    (hs.map entryStr).foldl headerFold m = m ++ hs.map trimKV := by
  induction hs generalizing m with
  | nil => simp
  | cons kv tl ih =>
    simp only [List.map_cons, List.foldl_cons]
    rw [headerFold_entry m kv (h8 kv (by simp)),
      mapSet_append _ (hnew kv (by simp))]
    rw [List.map_cons, List.nodup_cons] at hnodup
    rw [ih (m ++ [(trimUnd (trimSpace kv.1), trimUnd (trimSpace kv.2))])
      (fun kv' h' => h8 kv' (by simp [h']))
      ?_ hnodup.2]
    · simp [trimKV]
    · intro kv' h' p hp
      rcases List.mem_append.mp hp with hp | hp
      · exact hnew kv' (by simp [h']) p hp
      · simp only [List.mem_singleton] at hp
        subst hp
        have : trimUnd (trimSpace kv.1) ≠ trimUnd (trimSpace kv'.1) := by
          intro hEq
          exact hnodup.1 (hEq ▸ List.mem_map_of_mem _ h')
        simpa using this

/-! ### The line encoder and well-formedness (C4) -/

/-- The components a well-formed F5 log line encodes. -/
structure F5Line where
  scheme : Str
  path : Str
  method : Str
  query : Str
  sourceIP : Str
  destIP : Str
  protocol : Str
  status : Str
  sourcePort : Nat
  destPort : Nat
  reqTime : Nat
  respTime : Nat
  reqHeaders : List (Str × Str)
  respHeaders : List (Str × Str)
  deriving DecidableEq, Repr

/-- The 12 positional fields, in protocol order. -/
def fieldsOf (c : F5Line) : List Str :=
  [c.scheme, c.path, c.method, c.query, c.sourceIP, natToDec c.sourcePort, c.destIP,
   natToDec c.destPort, c.protocol, c.status, natToDec c.reqTime, natToDec c.respTime]

def reqEntriesStr (c : F5Line) : Str := joinSep HEAN (c.reqHeaders.map entryStr)

def respEntriesStr (c : F5Line) : Str := joinSep HEAN (c.respHeaders.map entryStr)

/-- The request-header section `__REQHS__ entries __REQHE__`. -/
def reqBlock (c : F5Line) : Str := REQHS ++ reqEntriesStr c ++ REQHE

/-- The response-header section `__RESPHS__ entries __RESPHE__`. -/
def respBlock (c : F5Line) : Str := RESPHS ++ respEntriesStr c ++ RESPHE

/-- The sentinel-free tail of the line: both header sections, no body
sections. -/
def blobOf (c : F5Line) : Str := reqBlock c ++ respBlock c

/-- The space-joined content between the sentinels. -/
def midOf (c : F5Line) : Str := joinSep [32] (fieldsOf c ++ [blobOf c])

/-- A line of the protocol: start sentinel, space, positional fields and
header blob, space, end sentinel. -/
def encodeF5Line (c : F5Line) : Str :=
  HSL_START ++ ((32 :: (midOf c ++ [32])) ++ HSL_END)

/-- No duplicates (over `Str` keys). -/
def nodupB : List Str → Bool
  | [] => true
  | k :: ks => !ks.contains k && nodupB ks

/-- Well-formedness of the encoded line: the positional fields are
non-empty and whitespace-free; header keys and values are whitespace-free;
each delimiter's first occurrence is at the place the encoder put it (no
field or header text aliases a sentinel or separator); the `HEAN` split
recovers exactly the encoded entries; trimmed header keys are distinct and
distinct from the synthetic pseudo-header keys; ports fit `int32` and the
times are ordered and fit comfortably in `int64` nanoseconds. -/
def wellFormed (c : F5Line) : Bool :=
  ((fieldsOf c).all fun w => !w.isEmpty && w.all fun b => !isSpaceB b) &&
  ((c.reqHeaders ++ c.respHeaders).all fun kv =>
    (kv.1.all fun b => !isSpaceB b) && (kv.2.all fun b => !isSpaceB b)) &&
  (firstIdx HSL_END (encodeF5Line c) ==
    some (HSL_START.length + ((midOf c).length + 2))) &&
  (firstIdx REQHE (reqEntriesStr c ++ REQHE ++ respBlock c) ==
    some (reqEntriesStr c).length) &&
  (firstIdx RESPHE (respEntriesStr c ++ RESPHE) == some (respEntriesStr c).length) &&
  (splitSub HEAN (reqEntriesStr c) ==
    (if c.reqHeaders.isEmpty then [([] : Str)] else c.reqHeaders.map entryStr)) &&
  (splitSub HEAN (respEntriesStr c) ==
    (if c.respHeaders.isEmpty then [([] : Str)] else c.respHeaders.map entryStr)) &&
  ((c.reqHeaders ++ c.respHeaders).all fun kv =>
    firstIdx HEAV (entryStr kv) == some kv.1.length) &&
  nodupB (c.reqHeaders.map fun kv => trimUnd (trimSpace kv.1)) &&
  nodupB (c.respHeaders.map fun kv => trimUnd (trimSpace kv.1)) &&
  ((c.reqHeaders.map fun kv => trimUnd (trimSpace kv.1)).all fun k =>
    !(k == kScheme) && !(k == kPath) && !(k == kMethod) && !(k == kQuery)) &&
  ((c.respHeaders.map fun kv => trimUnd (trimSpace kv.1)).all fun k => !(k == kStatus)) &&
  decide (c.sourcePort < 2 ^ 31) && decide (c.destPort < 2 ^ 31) &&
  decide (c.reqTime ≤ c.respTime) && decide (c.respTime < 2 ^ 43)

/-- The request-header map the claim expects: the encoded entries (keys
and values trimmed of padding) plus the four synthetic pseudo-headers. -/
def expectedReqHeaders (c : F5Line) : HMap :=
  c.reqHeaders.map trimKV ++
    [(kScheme, c.scheme), (kPath, c.path), (kMethod, c.method), (kQuery, c.query)]

/-- The response-header map the claim expects: the encoded entries
(trimmed) plus the `:status` pseudo-header. -/
def expectedRespHeaders (c : F5Line) : HMap :=
  c.respHeaders.map trimKV ++ [(kStatus, c.status)]

/-- The event a well-formed encoded line must decode to. -/
def expectedEvent (c : F5Line) : APIEvent :=
  { metadata :=
      { contextId := 0
        timestamp := c.reqTime
        meshId := []
        nodeName := []
        receiverName := f5ReceiverName
        receiverVersion := f5ReceiverVersion }
    source := { name := [], ns := [], ip := c.sourceIP, port := (c.sourcePort : Int) }
    destination := { name := [], ns := [], ip := c.destIP, port := (c.destPort : Int) }
    request := { headers := expectedReqHeaders c, body := [] }
    response :=
      { headers := expectedRespHeaders c
        body := []
        backendLatencyInNanos := (c.respTime - c.reqTime) * 1000000 }
    protocol := c.protocol }

/-! ### Step A: the sentinel/split stage on an encoded line -/

theorem joinSep_cons_cons (sep w v : Str) (ws : List Str) :
    joinSep sep (w :: v :: ws) = w ++ sep ++ joinSep sep (v :: ws) := rfl

theorem mem_joinSep {sep : Str} {ws : List Str} {b : Nat} (h : b ∈ joinSep sep ws) :
    b ∈ sep ∨ ∃ w ∈ ws, b ∈ w := by
  induction ws with
  | nil => simp [joinSep] at h
  | cons w ws ih =>
    cases ws with
    | nil => exact Or.inr ⟨w, by simp, by simpa [joinSep] using h⟩
    | cons v vs =>
      rw [joinSep_cons_cons] at h
      rcases List.mem_append.mp h with h1 | h2
      · rcases List.mem_append.mp h1 with ha | hb
        · exact Or.inr ⟨w, by simp, ha⟩
        · exact Or.inl hb
      · rcases ih h2 with h3 | ⟨u, hu, hb⟩
        · exact Or.inl h3
        · exact Or.inr ⟨u, by simp [hu], hb⟩

theorem joinSep_concat (sep : Str) (ws : List Str) (w : Str) :
    ∃ q, joinSep sep (ws ++ [w]) = q ++ w := by
  induction ws with
  | nil => exact ⟨[], by simp [joinSep]⟩
  | cons v ws ih =>
    cases ws with
    | nil => exact ⟨v ++ sep, by simp [joinSep]⟩
    | cons u us =>
      obtain ⟨q, hq⟩ := ih
      refine ⟨v ++ sep ++ q, ?_⟩
      rw [List.cons_append, List.cons_append, joinSep_cons_cons]
      rw [List.cons_append] at hq
      rw [hq]
      simp [List.append_assoc]

/-- Destructured well-formedness. -/
theorem wellFormed_parts {c : F5Line} (h : wellFormed c = true) :
    ((fieldsOf c).all fun w => !w.isEmpty && w.all fun b => !isSpaceB b) = true ∧
    ((c.reqHeaders ++ c.respHeaders).all fun kv =>
      (kv.1.all fun b => !isSpaceB b) && (kv.2.all fun b => !isSpaceB b)) = true ∧
    firstIdx HSL_END (encodeF5Line c) =
      some (HSL_START.length + ((midOf c).length + 2)) ∧
    firstIdx REQHE (reqEntriesStr c ++ REQHE ++ respBlock c) =
      some (reqEntriesStr c).length ∧
    firstIdx RESPHE (respEntriesStr c ++ RESPHE) = some (respEntriesStr c).length ∧
    splitSub HEAN (reqEntriesStr c) =
      (if c.reqHeaders.isEmpty then [([] : Str)] else c.reqHeaders.map entryStr) ∧
    splitSub HEAN (respEntriesStr c) =
      (if c.respHeaders.isEmpty then [([] : Str)] else c.respHeaders.map entryStr) ∧
    ((c.reqHeaders ++ c.respHeaders).all fun kv =>
      firstIdx HEAV (entryStr kv) == some kv.1.length) = true ∧
    nodupB (c.reqHeaders.map fun kv => trimUnd (trimSpace kv.1)) = true ∧
    nodupB (c.respHeaders.map fun kv => trimUnd (trimSpace kv.1)) = true ∧
    ((c.reqHeaders.map fun kv => trimUnd (trimSpace kv.1)).all fun k =>
      !(k == kScheme) && !(k == kPath) && !(k == kMethod) && !(k == kQuery)) = true ∧
    ((c.respHeaders.map fun kv => trimUnd (trimSpace kv.1)).all fun k =>
      !(k == kStatus)) = true ∧
    c.sourcePort < 2 ^ 31 ∧ c.destPort < 2 ^ 31 ∧
    c.reqTime ≤ c.respTime ∧ c.respTime < 2 ^ 43 := by
  unfold wellFormed at h
  simp only [Bool.and_eq_true, beq_iff_eq, decide_eq_true_eq] at h
  obtain ⟨⟨⟨⟨⟨⟨⟨⟨⟨⟨⟨⟨⟨⟨⟨p1, p2⟩, p3⟩, p4⟩, p5⟩, p6⟩, p7⟩, p8⟩, p9⟩, p10⟩,
    p11⟩, p12⟩, p13⟩, p14⟩, p15⟩, p16⟩ := h
  exact ⟨p1, p2, p3, p4, p5, p6, p7, by simpa using p8, p9, p10, p11, p12, p13, p14,
    p15, p16⟩

/-- Every byte of the header blob differs from the space byte. -/
theorem blobOf_space_free {c : F5Line}
    (h2 : ((c.reqHeaders ++ c.respHeaders).all fun kv =>
      (kv.1.all fun b => !isSpaceB b) && (kv.2.all fun b => !isSpaceB b)) = true) :
    ∀ b ∈ blobOf c, (b == 32) = false := by
  have hkv : ∀ kv ∈ c.reqHeaders ++ c.respHeaders, ∀ b,
      (b ∈ kv.1 ∨ b ∈ kv.2) → (b == 32) = false := by
    intro kv hkv b hb
    have := List.all_eq_true.mp h2 kv hkv
    simp only [Bool.and_eq_true, List.all_eq_true, Bool.not_eq_true'] at this
    have hsp : isSpaceB b = false := by
      rcases hb with hb | hb
      · exact this.1 b hb
      · exact this.2 b hb
    simp only [beq_eq_false_iff_ne, ne_eq]
    intro hb32
    subst hb32
    simp [isSpaceB] at hsp
  have hentry : ∀ hs, hs = c.reqHeaders ∨ hs = c.respHeaders →
      ∀ b ∈ joinSep HEAN (hs.map entryStr), (b == 32) = false := by
    intro hs hhs b hb
    rcases mem_joinSep hb with hb | ⟨w, hw, hb⟩
    · exact (by decide : ∀ x ∈ HEAN, (x == 32) = false) b hb
    · obtain ⟨kv, hkvmem, rfl⟩ := List.mem_map.mp hw
      unfold entryStr at hb
      rcases List.mem_append.mp hb with hb | hb
      · rcases List.mem_append.mp hb with hb | hb
        · exact hkv kv (by rcases hhs with rfl | rfl <;> simp [hkvmem]) b (Or.inl hb)
        · exact (by decide : ∀ x ∈ HEAV, (x == 32) = false) b hb
      · exact hkv kv (by rcases hhs with rfl | rfl <;> simp [hkvmem]) b (Or.inr hb)
  intro b hb
  unfold blobOf reqBlock respBlock at hb
  simp only [List.append_assoc, List.mem_append] at hb
  rcases hb with hb | hb | hb | hb | hb | hb
  · exact (by decide : ∀ x ∈ REQHS, (x == 32) = false) b hb
  · exact hentry c.reqHeaders (Or.inl rfl) b (by simpa [reqEntriesStr] using hb)
  · exact (by decide : ∀ x ∈ REQHE, (x == 32) = false) b hb
  · exact (by decide : ∀ x ∈ RESPHS, (x == 32) = false) b hb
  · exact hentry c.respHeaders (Or.inr rfl) b (by simpa [respEntriesStr] using hb)
  · exact (by decide : ∀ x ∈ RESPHE, (x == 32) = false) b hb

/-- Step A: the sentinel/trim/split stage of the parser recovers exactly
the 12 encoded fields plus the header blob. -/
theorem f5Fields_encode (c : F5Line) (h : wellFormed c = true) :
    f5Fields (encodeF5Line c) = .ok (fieldsOf c ++ [blobOf c]) := by
  obtain ⟨h1, h2, h3, -, -, -, -, -, -, -, -, -, -, -, -, -⟩ := wellFormed_parts h
  have hstart : firstIdx HSL_START (encodeF5Line c) = some 0 :=
    firstIdx_of_prefixL (isPrefixL_append_self _ _)
  unfold f5Fields
  rw [hstart, h3]
  dsimp only
  rw [if_neg (by omega)]
  have hseg : seg (encodeF5Line c) (0 + HSL_START.length)
      (HSL_START.length + ((midOf c).length + 2)) = 32 :: (midOf c ++ [32]) := by
    unfold seg encodeF5Line
    rw [Nat.zero_add, List.drop_left]
    rw [show HSL_START.length + ((midOf c).length + 2) - HSL_START.length =
      (32 :: (midOf c ++ [32])).length from by simp]
    exact List.take_left ..
  rw [hseg]
  have hschemene : c.scheme ≠ [] ∧ ∀ b ∈ c.scheme, isSpaceB b = false := by
    have := List.all_eq_true.mp h1 c.scheme (by simp [fieldsOf])
    simp only [Bool.and_eq_true, List.all_eq_true, Bool.not_eq_true',
      List.isEmpty_iff, Bool.not_eq_true] at this
    exact ⟨by simpa using this.1, this.2⟩
  have htrim : trimSpace (32 :: (midOf c ++ [32])) = midOf c := by
    rcases hs : c.scheme with _ | ⟨a, x⟩
    · exact absurd hs hschemene.1
    have hmid1 : midOf c = a :: (x ++ ([32] ++ joinSep [32]
        ([c.path, c.method, c.query, c.sourceIP, natToDec c.sourcePort, c.destIP,
          natToDec c.destPort, c.protocol, c.status, natToDec c.reqTime,
          natToDec c.respTime] ++ [blobOf c]))) := by
      unfold midOf
      rw [show fieldsOf c ++ [blobOf c] = c.scheme ::
        ([c.path, c.method, c.query, c.sourceIP, natToDec c.sourcePort, c.destIP,
          natToDec c.destPort, c.protocol, c.status, natToDec c.reqTime,
          natToDec c.respTime] ++ [blobOf c]) from by simp [fieldsOf]]
      rw [show ([c.path, c.method, c.query, c.sourceIP, natToDec c.sourcePort, c.destIP,
          natToDec c.destPort, c.protocol, c.status, natToDec c.reqTime,
          natToDec c.respTime] ++ [blobOf c]) = c.path ::
        ([c.method, c.query, c.sourceIP, natToDec c.sourcePort, c.destIP,
          natToDec c.destPort, c.protocol, c.status, natToDec c.reqTime,
          natToDec c.respTime] ++ [blobOf c]) from by simp]
      rw [joinSep_cons_cons, hs]
      simp [List.append_assoc]
    have ha : isSpaceB a = false := hschemene.2 a (by simp [hs])
    obtain ⟨q, hq⟩ := joinSep_concat [32] (fieldsOf c) (blobOf c)
    have hmid2 : midOf c = (q ++ (reqBlock c ++ (RESPHS ++ respEntriesStr c))) ++
        RESPHE := by
      unfold midOf
      rw [hq]
      unfold blobOf respBlock
      simp [List.append_assoc]
    have hrevE : (midOf c).reverse = 95 :: ([95, 69, 72, 80, 83, 69, 82, 95, 95] ++
        (q ++ (reqBlock c ++ (RESPHS ++ respEntriesStr c))).reverse) := by
      rw [hmid2, List.reverse_append,
        show RESPHE.reverse = 95 :: [95, 69, 72, 80, 83, 69, 82, 95, 95] from by decide,
        List.cons_append]
    exact trimSpace_pad hmid1 ha hrevE (by decide)
  rw [htrim]
  have hsplit : splitCh 32 (midOf c) = fieldsOf c ++ [blobOf c] := by
    unfold midOf
    apply splitCh_joinSep (by simp [fieldsOf])
    intro w hw b hb
    rcases List.mem_append.mp hw with hw | hw
    · have hall := List.all_eq_true.mp h1 w hw
      simp only [Bool.and_eq_true, List.all_eq_true, Bool.not_eq_true'] at hall
      have hb' := hall.2 b hb
      simp only [beq_eq_false_iff_ne, ne_eq]
      intro h32
      subst h32
      simp [isSpaceB] at hb'
    · simp only [List.mem_singleton] at hw
      subst hw
      exact blobOf_space_free h2 b hb
  rw [hsplit]
  have hlen : (fieldsOf c ++ [blobOf c]).length = 13 := by simp [fieldsOf]
  rw [if_neg (by rw [hlen]; omega), if_neg (by rw [hlen]; omega)]

/-! ### Step B: the event-building stage on the recovered fields -/

theorem contains_of_mem {l : List Str} {k : Str} (h : k ∈ l) : l.contains k = true := by
  induction l with
  | nil => simp at h
  | cons a as ih =>
    rcases List.mem_cons.mp h with rfl | h
    · simp [List.contains_cons]
    · simp [List.contains_cons, ih h, h]

theorem nodupB_nodup {l : List Str} (h : nodupB l = true) : l.Nodup := by
  induction l with
  | nil => simp
  | cons k ks ih =>
    simp only [nodupB, Bool.and_eq_true, Bool.not_eq_true'] at h
    rw [List.nodup_cons]
    refine ⟨fun hmem => ?_, ih h.2⟩
    have hc := contains_of_mem hmem
    rw [h.1] at hc
    cases hc

theorem extractHeaders_canonical (startTag endTag : Str) (hs : List (Str × Str))
    (tail : Str)
    (hEnd : firstIdx endTag (joinSep HEAN (hs.map entryStr) ++ endTag ++ tail) =
      some (joinSep HEAN (hs.map entryStr)).length)
    (hsplit : splitSub HEAN (joinSep HEAN (hs.map entryStr)) =
      (if hs.isEmpty then [([] : Str)] else hs.map entryStr))
    (h8 : ∀ kv ∈ hs, firstIdx HEAV (entryStr kv) = some kv.1.length)
    (hnodup : (hs.map fun kv => trimUnd (trimSpace kv.1)).Nodup) :
    extractHeaders (startTag ++ (joinSep HEAN (hs.map entryStr) ++ endTag ++ tail))
      startTag endTag = (hs.map trimKV, tail) := by
  unfold extractHeaders
  rw [firstIdx_of_prefixL (isPrefixL_append_self startTag _)]
  dsimp only
  rw [Nat.zero_add, List.drop_left, hEnd]
  dsimp only
  have htake : ((joinSep HEAN (hs.map entryStr) ++ endTag) ++ tail).take
      (joinSep HEAN (hs.map entryStr)).length = joinSep HEAN (hs.map entryStr) := by
    rw [List.append_assoc]
    exact List.take_left ..
  have hdrop : ((joinSep HEAN (hs.map entryStr) ++ endTag) ++ tail).drop
      ((joinSep HEAN (hs.map entryStr)).length + endTag.length) = tail := by
    rw [show (joinSep HEAN (hs.map entryStr)).length + endTag.length =
      (joinSep HEAN (hs.map entryStr) ++ endTag).length from by simp, List.drop_left]
  rw [htake, hdrop, hsplit]
  cases hs with
  | nil => rfl
  | cons kv tl =>
    rw [if_neg (by simp)]
    rw [foldl_headerFold (kv :: tl) [] h8 (by intro kv' h' p hp; simp at hp) hnodup]
    rfl

/-- Step B: the event-building stage on the recovered fields produces
exactly the expected event. -/
theorem f5EventOfParts_encode (c : F5Line) (h : wellFormed c = true) :
    f5EventOfParts (fieldsOf c ++ [blobOf c]) = .event (expectedEvent c) := by
  obtain ⟨-, -, -, h4, h5, h6, h7, h8, h9, h10, h11, h12, h13, h14, h15, h16⟩ :=
    wellFormed_parts h
  have h8' : ∀ kv ∈ c.reqHeaders ++ c.respHeaders,
      firstIdx HEAV (entryStr kv) = some kv.1.length := by
    intro kv hkv
    simpa using List.all_eq_true.mp h8 kv hkv
  have g0 : (fieldsOf c ++ [blobOf c]).getD 0 [] = c.scheme := rfl
  have g1 : (fieldsOf c ++ [blobOf c]).getD 1 [] = c.path := rfl
  have g2 : (fieldsOf c ++ [blobOf c]).getD 2 [] = c.method := rfl
  have g3 : (fieldsOf c ++ [blobOf c]).getD 3 [] = c.query := rfl
  have g4 : (fieldsOf c ++ [blobOf c]).getD 4 [] = c.sourceIP := rfl
  have g5 : (fieldsOf c ++ [blobOf c]).getD 5 [] = natToDec c.sourcePort := rfl
  have g6 : (fieldsOf c ++ [blobOf c]).getD 6 [] = c.destIP := rfl
  have g7 : (fieldsOf c ++ [blobOf c]).getD 7 [] = natToDec c.destPort := rfl
  have g8 : (fieldsOf c ++ [blobOf c]).getD 8 [] = c.protocol := rfl
  have g9 : (fieldsOf c ++ [blobOf c]).getD 9 [] = c.status := rfl
  have g10 : (fieldsOf c ++ [blobOf c]).getD 10 [] = natToDec c.reqTime := rfl
  have g11 : (fieldsOf c ++ [blobOf c]).getD 11 [] = natToDec c.respTime := rfl
  have gdrop : joinSp ((fieldsOf c ++ [blobOf c]).drop 12) = blobOf c := rfl
  have hreq : extractHeaders (blobOf c) REQHS REQHE =
      (c.reqHeaders.map trimKV, respBlock c) := by
    have hshape : blobOf c = REQHS ++
        (joinSep HEAN (c.reqHeaders.map entryStr) ++ REQHE ++ respBlock c) := by
      unfold blobOf reqBlock reqEntriesStr
      simp [List.append_assoc]
    rw [hshape]
    exact extractHeaders_canonical REQHS REQHE c.reqHeaders (respBlock c) h4 h6
      (fun kv hkv => h8' kv (List.mem_append.mpr (Or.inl hkv))) (nodupB_nodup h9)
  have hresp : extractHeaders (respBlock c) RESPHS RESPHE =
      (c.respHeaders.map trimKV, ([] : Str)) := by
    have hshape : respBlock c = RESPHS ++
        (joinSep HEAN (c.respHeaders.map entryStr) ++ RESPHE ++ ([] : Str)) := by
      unfold respBlock respEntriesStr
      simp [List.append_assoc]
    rw [hshape]
    exact extractHeaders_canonical RESPHS RESPHE c.respHeaders [] (by simpa using h5) h7
      (fun kv hkv => h8' kv (List.mem_append.mpr (Or.inr hkv))) (nodupB_nodup h10)
  have hkeys : ∀ p ∈ c.reqHeaders.map trimKV, (p.1 == kScheme) = false ∧
      (p.1 == kPath) = false ∧ (p.1 == kMethod) = false ∧ (p.1 == kQuery) = false := by
    intro p hp
    obtain ⟨kv, hkv, rfl⟩ := List.mem_map.mp hp
    have := List.all_eq_true.mp h11 (trimUnd (trimSpace kv.1))
      (List.mem_map_of_mem _ hkv)
    simp only [Bool.and_eq_true, Bool.not_eq_true'] at this
    exact ⟨this.1.1.1, this.1.1.2, this.1.2, this.2⟩
  have cond1 : ∀ p ∈ c.reqHeaders.map trimKV, (p.1 == kScheme) = false :=
    fun p hp => (hkeys p hp).1
  have cond2 : ∀ p ∈ c.reqHeaders.map trimKV ++ [(kScheme, c.scheme)],
      (p.1 == kPath) = false := by
    intro p hp
    rcases List.mem_append.mp hp with hp | hp
    · exact (hkeys p hp).2.1
    · simp only [List.mem_singleton] at hp
      subst hp
      exact (by decide : (kScheme == kPath) = false)
  have cond3 : ∀ p ∈ c.reqHeaders.map trimKV ++ [(kScheme, c.scheme)] ++
      [(kPath, c.path)], (p.1 == kMethod) = false := by
    intro p hp
    rcases List.mem_append.mp hp with hp | hp
    · rcases List.mem_append.mp hp with hp | hp
      · exact (hkeys p hp).2.2.1
      · simp only [List.mem_singleton] at hp
        subst hp
        exact (by decide : (kScheme == kMethod) = false)
    · simp only [List.mem_singleton] at hp
      subst hp
      exact (by decide : (kPath == kMethod) = false)
  have cond4 : ∀ p ∈ c.reqHeaders.map trimKV ++ [(kScheme, c.scheme)] ++
      [(kPath, c.path)] ++ [(kMethod, c.method)], (p.1 == kQuery) = false := by
    intro p hp
    rcases List.mem_append.mp hp with hp | hp
    · rcases List.mem_append.mp hp with hp | hp
      · rcases List.mem_append.mp hp with hp | hp
        · exact (hkeys p hp).2.2.2
        · simp only [List.mem_singleton] at hp
          subst hp
          exact (by decide : (kScheme == kQuery) = false)
      · simp only [List.mem_singleton] at hp
        subst hp
        exact (by decide : (kPath == kQuery) = false)
    · simp only [List.mem_singleton] at hp
      subst hp
      exact (by decide : (kMethod == kQuery) = false)
  have hreqmap : mapSet (mapSet (mapSet (mapSet (c.reqHeaders.map trimKV) kScheme
      c.scheme) kPath c.path) kMethod c.method) kQuery c.query = expectedReqHeaders c := by
    rw [mapSet_append c.scheme cond1, mapSet_append c.path cond2,
      mapSet_append c.method cond3, mapSet_append c.query cond4]
    unfold expectedReqHeaders
    simp [List.append_assoc]
  have condS : ∀ p ∈ c.respHeaders.map trimKV, (p.1 == kStatus) = false := by
    intro p hp
    obtain ⟨kv, hkv, rfl⟩ := List.mem_map.mp hp
    have := List.all_eq_true.mp h12 (trimUnd (trimSpace kv.1))
      (List.mem_map_of_mem _ hkv)
    simpa using this
  have hrespmap : mapSet (c.respHeaders.map trimKV) kStatus c.status =
      expectedRespHeaders c := by
    rw [mapSet_append c.status condS]
    rfl
  have hsp : toInt32 (goAtoi (natToDec c.sourcePort)) = (c.sourcePort : Int) := by
    unfold goAtoi
    rw [goParseInt64_natToDec _ (by omega), toInt32_natCast _ h13]
  have hdp : toInt32 (goAtoi (natToDec c.destPort)) = (c.destPort : Int) := by
    unfold goAtoi
    rw [goParseInt64_natToDec _ (by omega), toInt32_natCast _ h14]
  have hts : toUInt64 (goParseInt64 (natToDec c.reqTime)) = c.reqTime := by
    rw [goParseInt64_natToDec _ (by omega)]
    exact toUInt64_natCast _ (by omega)
  have hlat : toUInt64 (wrap64 (wrap64 (goParseInt64 (natToDec c.respTime) -
      goParseInt64 (natToDec c.reqTime)) * 1000000)) =
      (c.respTime - c.reqTime) * 1000000 := by
    rw [goParseInt64_natToDec _ (by omega), goParseInt64_natToDec _ (by omega)]
    exact latency_wrap_eval c.reqTime c.respTime h15 h16
  simp only [f5EventOfParts]
  rw [g0, g1, g2, g3, g4, g5, g6, g7, g8, g9, g10, g11, gdrop, hreq]
  dsimp only
  rw [hresp]
  dsimp only
  rw [hreqmap, hrespmap,
    show firstIdx REQPS ([] : Str) = none from by decide,
    show firstIdx REQPE ([] : Str) = none from by decide]
  dsimp only
  rw [hsp, hdp, hts, hlat]
  rfl

/-- C4: every well-formed sentinel-delimited line round-trips — the parser
returns an `APIEvent` whose scheme, path, method, query, source IP/port,
destination IP/port, protocol and status equal the encoded positional
values (scheme/path/method/query as request pseudo-headers, status as the
response `:status` pseudo-header), and whose header maps contain exactly
the encoded entries (keys and values trimmed of padding) plus the
synthetic pseudo-headers. -/
theorem f5_line_roundtrip (c : F5Line) (h : wellFormed c = true) :
    parseF5LogLine (encodeF5Line c) = .event (expectedEvent c) := by
  unfold parseF5LogLine
  rw [f5Fields_encode c h]
  exact f5EventOfParts_encode c h

/-- A concrete well-formed line for the C4 witness. -/
def c4Sample : F5Line :=
  { scheme := strOfString ("https")
    path := strOfString ("/api")
    method := strOfString ("GET")
    query := strOfString ("q=1")
    sourceIP := strOfString ("1.2.3.4")
    destIP := strOfString ("5.6.7.8")
    protocol := strOfString ("HTTP/1.1")
    status := strOfString ("200")
    sourcePort := 8080
    destPort := 9090
    reqTime := 1000
    respTime := 1050
    reqHeaders := [(strOfString ("host"), strOfString ("example.com")),
                   (strOfString ("accept"), strOfString ("text/html"))]
    respHeaders := [(strOfString ("server"), strOfString ("f5"))] }

/-- Witness for C4 at `c4Sample`. -/
theorem f5_line_roundtrip_witness :
    wellFormed c4Sample = true ∧
    parseF5LogLine (encodeF5Line c4Sample) = .event (expectedEvent c4Sample) :=
  ⟨by decide, f5_line_roundtrip c4Sample (by decide)⟩

end SentryFlow
